import Mathlib

/-!
# country-search-api: the memoising country lookup handler

A shallow embedding of `main.go` (and of `cache/cache.go`, which repeats the
cache of `main.go` verbatim) together with the properties of the store and of
`countryHandler`.

Modelling conventions.

* Go `string` values are Lean `String`s.
* A Go `map[string]T` is an association list holding at most one entry per key:
  a lookup is `GoMap.lookup`, the assignment `m[k] = v` is `GoMap.assign`.
* An `interface{}` held by the store is a `Value`: the nil interface, a
  `string`, or a `Country` (the dynamic types this program puts in the store).
* The locks of `MemoryCache` guard single map operations; in this sequential
  model `Get` and `Set` are the map operations themselves.
* Everything `countryHandler` does to the outside world is recorded: the
  response it writes, the store it leaves, and the trace of store operations
  and outbound calls it made.
-/

namespace CountrySearch

/-! ## Data structs -/

/-- Final response returned to the client (`type Country struct`). -/
structure Country where
  Name : String
  Capital : String
  Currency : String
  Population : Int
  deriving DecidableEq, Repr

/-- The anonymous struct `struct { Common string }` of `restCountry.Name`. -/
structure restName where
  Common : String
  deriving DecidableEq, Repr

/-- The anonymous struct `struct { Symbol string }` of the currency mapping. -/
structure restCurrency where
  Symbol : String
  deriving DecidableEq, Repr

/-- Partial REST Countries API response (`type restCountry struct`). -/
structure restCountry where
  Name : restName
  Capital : List String
  Population : Int
  Currencies : List (String × restCurrency)
  deriving DecidableEq, Repr

/-- An `interface{}` value as this program stores it. -/
inductive Value where
  | nil : Value
  | str (s : String) : Value
  | country (c : Country) : Value
  deriving DecidableEq, Repr

/-! ## Go maps -/

namespace GoMap

/-- The two-result map read `v, ok := m[key]`, as an option. -/
def lookup {V : Type} (m : List (String × V)) (key : String) : Option V :=
  match m with
  | [] => none
  | (k, v) :: rest => if k = key then some v else lookup rest key

/-- The map write `m[key] = value`: the old entry for `key`, if any, is replaced. -/
def assign {V : Type} (m : List (String × V)) (key : String) (value : V) :
    List (String × V) :=
  (key, value) :: m.filter (fun p => !decide (p.1 = key))

end GoMap

/-! ## Cache implementation -/

/-- The store `type MemoryCache struct { data map[string]interface{}; mu sync.RWMutex }`. -/
structure MemoryCache where
  data : List (String × Value)
  deriving DecidableEq, Repr

/-- `func NewMemoryCache() *MemoryCache`: a store over an empty map. -/
def NewMemoryCache : MemoryCache :=
  { data := [] }

/-- `func (c *MemoryCache) Get(key string) (interface{}, bool)`:
`val, ok := c.data[key]; return val, ok`. A missing key reads as the nil interface. -/
def MemoryCache.Get (c : MemoryCache) (key : String) : Value × Bool :=
  match GoMap.lookup c.data key with
  | some val => (val, true)
  | none => (Value.nil, false)

/-- `func (c *MemoryCache) Set(key string, value interface{})`: `c.data[key] = value`. -/
def MemoryCache.Set (c : MemoryCache) (key : String) (value : Value) : MemoryCache :=
  { data := GoMap.assign c.data key value }

/-- One call on the store, as a client issues it. -/
inductive CacheOp where
  | get (key : String) : CacheOp
  | set (key : String) (value : Value) : CacheOp
  deriving DecidableEq, Repr

/-- The key a store call is about. -/
def CacheOp.key : CacheOp → String
  | .get key => key
  | .set key _ => key

/-- The store after one call: `Get` leaves it as it is, `Set` writes. -/
def CacheOp.apply (c : MemoryCache) : CacheOp → MemoryCache
  | .get _ => c
  | .set key value => c.Set key value

/-- The store after a sequence of calls, issued left to right. -/
def runOps (c : MemoryCache) (ops : List CacheOp) : MemoryCache :=
  ops.foldl CacheOp.apply c

/-- The store after a sequence of `Set(key, value)` calls, issued left to right. -/
def runSets (c : MemoryCache) (sets : List (String × Value)) : MemoryCache :=
  sets.foldl (fun acc p => acc.Set p.1 p.2) c

/-! ## Library boundary: `net/http` and `encoding/json` -/

/-- `http.StatusOK`. -/
def StatusOK : Nat := 200

/-- `http.StatusBadRequest`. -/
def StatusBadRequest : Nat := 400

/-- `http.StatusNotFound`. -/
def StatusNotFound : Nat := 404

/-- `http.StatusInternalServerError`. -/
def StatusInternalServerError : Nat := 500

/-- What a handler leaves on its `http.ResponseWriter`: the status line, the
headers it set and the bytes it wrote. -/
structure Response where
  status : Nat
  header : List (String × String)
  body : String
  deriving DecidableEq, Repr

/-- The value of the `Content-Type` header of a response, `""` when unset. -/
def Response.contentType (resp : Response) : String :=
  (GoMap.lookup resp.header "Content-Type").getD ""

/-- `http.Error(w, error, code)`: plain-text content type, `nosniff`, the status
`code`, and the message written as one line (`fmt.Fprintln`). -/
def httpError (error : String) (code : Nat) : Response :=
  { status := code
    header := [("Content-Type", "text/plain; charset=utf-8"),
               ("X-Content-Type-Options", "nosniff")]
    body := error ++ "\n" }

/-- Two lower-case hexadecimal digits of a number below 256. -/
def hex2 (n : Nat) : String :=
  String.mk [Nat.digitChar (n / 16 % 16), Nat.digitChar (n % 16)]

/-- How `encoding/json` writes one character inside a string literal
(HTML escaping on, as it is for an `Encoder` by default). -/
def jsonEscapeChar (c : Char) : String :=
  let n := c.toNat
  if n = 34 then "\\\""
  else if n = 92 then "\\\\"
  else if n = 8 then "\\b"
  else if n = 12 then "\\f"
  else if n = 10 then "\\n"
  else if n = 13 then "\\r"
  else if n = 9 then "\\t"
  else if n < 32 ∨ n = 60 ∨ n = 62 ∨ n = 38 then "\\u00" ++ hex2 n
  else if n = 8232 then "\\u2028"
  else if n = 8233 then "\\u2029"
  else String.singleton c

/-- A Go string as a JSON string literal. -/
def jsonString (s : String) : String :=
  "\"" ++ String.join (s.data.map jsonEscapeChar) ++ "\""

/-- An `int64` as a JSON number. -/
def jsonInt (n : Int) : String :=
  match n with
  | Int.ofNat m => Nat.repr m
  | Int.negSucc m => "-" ++ Nat.repr (m + 1)

/-- `json.Marshal` of a `Country`, fields in declaration order under their tags. -/
def jsonCountry (c : Country) : String :=
  "\x7b\"name\":" ++ jsonString c.Name ++
  ",\"capital\":" ++ jsonString c.Capital ++
  ",\"currency\":" ++ jsonString c.Currency ++
  ",\"population\":" ++ jsonInt c.Population ++ "\x7d"

/-- `json.Marshal` of a stored value. -/
def jsonMarshal : Value → String
  | .nil => "null"
  | .str s => jsonString s
  | .country c => jsonCountry c

/-- The success path of the handler,
`w.Header().Set("Content-Type", "application/json"); json.NewEncoder(w).Encode(v)`:
the first write sends status 200, and `Encode` ends the document with a newline. -/
def writeJSON (v : Value) : Response :=
  { status := StatusOK
    header := [("Content-Type", "application/json")]
    body := jsonMarshal v ++ "\n" }

/-- The inbound request, as far as the handler reads it: the pairs of
`r.URL.Query()`, in the order of the raw query string. -/
structure Request where
  query : List (String × String)
  deriving DecidableEq, Repr

/-- `url.Values.Get(key)`: the first value of `key`, `""` when there is none. -/
def Values.Get (query : List (String × String)) (key : String) : String :=
  match GoMap.lookup query key with
  | some v => v
  | none => ""

/-- What the upstream side of one request does: building the request fails
(`http.NewRequestWithContext`), performing it fails (`client.Do`, the 5-second
timeout included), the payload does not decode (`Decode`), or it decodes to a
list of candidates. -/
inductive Upstream where
  | newRequestErr (msg : String) : Upstream
  | doErr (msg : String) : Upstream
  | decodeErr (msg : String) : Upstream
  | decoded (apiResp : List restCountry) : Upstream
  deriving DecidableEq, Repr

/-- Everything outside the handler's control during one request: the upstream
outcome, and which entry an iteration over the currency map visits first
(`pick`, taken modulo the size of the map). -/
structure World where
  upstream : Upstream
  pick : Nat
  deriving DecidableEq, Repr

/-- One observable action of the handler: a read or a write of the store, or
the call `client.Do(req)`, recorded with the URL string `req` was built from. -/
inductive Event where
  | cacheGet (key : String) : Event
  | cacheSet (key : String) (value : Value) : Event
  | upstreamDo (url : String) : Event
  deriving DecidableEq, Repr

/-- Whether an action is an outbound call. -/
def Event.isUpstream : Event → Bool
  | .upstreamDo _ => true
  | _ => false

/-- Whether an action touches the store. -/
def Event.isStore : Event → Bool
  | .cacheGet _ => true
  | .cacheSet _ _ => true
  | .upstreamDo _ => false

/-- No outbound call appears in a trace. -/
def noUpstream (trace : List Event) : Prop :=
  ∀ e ∈ trace, e.isUpstream = false

/-- No store operation appears in a trace. -/
def noStore (trace : List Event) : Prop :=
  ∀ e ∈ trace, e.isStore = false

instance (trace : List Event) : Decidable (noUpstream trace) := by
  unfold noUpstream; infer_instance

instance (trace : List Event) : Decidable (noStore trace) := by
  unfold noStore; infer_instance

/-- How a run of the handler ends: with a response, or with a run-time panic
(which `net/http` recovers by dropping the connection: nothing is written). -/
inductive Outcome where
  | responded (resp : Response) : Outcome
  | panicked (msg : String) : Outcome
  deriving DecidableEq, Repr

/-- A run of the handler: the store it leaves, how it ended, what it did. -/
structure Result where
  cache : MemoryCache
  outcome : Outcome
  trace : List Event
  deriving DecidableEq, Repr

/-! ## HTTP handler -/

/-- The zero value of `restCountry` (`var rc restCountry`). -/
def restCountry.zero : restCountry :=
  { Name := { Common := "" }, Capital := [], Population := 0, Currencies := [] }

/-- The loop `for _, c := range apiResp { if c.Name.Common == name { rc = c;
found = true; break } }`, returning `(rc, found)`. -/
def matchLoop (name : String) : List restCountry → restCountry × Bool
  | [] => (restCountry.zero, false)
  | c :: rest => if c.Name.Common = name then (c, true) else matchLoop name rest

/-- Lines 124-136 on a non-empty `apiResp = first :: rest`: the exact match of
the loop, else `apiResp[0]`. -/
def selectCandidate (name : String) (first : restCountry) (rest : List restCountry) :
    restCountry :=
  match matchLoop name (first :: rest) with
  | (rc, true) => rc
  | (_, false) => first

/-- The loop `for _, c := range rc.Currencies { currency = c.Symbol; break }`:
the symbol of the entry visited first, `""` over an empty map. -/
def extractCurrency (Currencies : List (String × restCurrency)) (pick : Nat) : String :=
  match Currencies[pick % Currencies.length]? with
  | some (_, c) => c.Symbol
  | none => ""

/-- The URL string the handler builds and hands to `http.NewRequestWithContext`,
`fmt.Sprintf("https://restcountries.com/v3.1/name/%s", name)`. The URL that is
then requested is what `net/url` makes of this string: `requestedURL`. -/
def upstreamURL (name : String) : String :=
  "https://restcountries.com/v3.1/name/" ++ name

/-- The handler `countryHandler(cache)` serving one request. -/
def countryHandler (cache : MemoryCache) (r : Request) (env : World) : Result :=
  let name := Values.Get r.query "name"
  if name = "" then
    { cache := cache
      outcome := .responded (httpError "name query param is required" StatusBadRequest)
      trace := [] }
  else
    match cache.Get name with
    | (cached, true) =>
      { cache := cache
        outcome := .responded (writeJSON cached)
        trace := [.cacheGet name] }
    | (_, false) =>
      let url := upstreamURL name
      match env.upstream with
      | .newRequestErr msg =>
        { cache := cache
          outcome := .responded (httpError msg StatusInternalServerError)
          trace := [.cacheGet name] }
      | .doErr msg =>
        { cache := cache
          outcome := .responded (httpError msg StatusInternalServerError)
          trace := [.cacheGet name, .upstreamDo url] }
      | .decodeErr msg =>
        { cache := cache
          outcome := .responded (httpError msg StatusInternalServerError)
          trace := [.cacheGet name, .upstreamDo url] }
      | .decoded [] =>
        { cache := cache
          outcome := .responded (httpError "country not found" StatusNotFound)
          trace := [.cacheGet name, .upstreamDo url] }
      | .decoded (first :: rest) =>
        let rc := selectCandidate name first rest
        let currency := extractCurrency rc.Currencies env.pick
        match rc.Capital with
        | [] =>
          { cache := cache
            outcome := .panicked "runtime error: index out of range [0] with length 0"
            trace := [.cacheGet name, .upstreamDo url] }
        | capital :: _ =>
          let country : Country :=
            { Name := rc.Name.Common
              Capital := capital
              Currency := currency
              Population := rc.Population }
          { cache := cache.Set name (.country country)
            outcome := .responded (writeJSON (.country country))
            trace := [.cacheGet name, .upstreamDo url, .cacheSet name (.country country)] }

/-- The store and the results after serving a sequence of requests one after
the other, each under its own outside world. -/
def serveAll (cache : MemoryCache) : List (Request × World) → MemoryCache × List Result
  | [] => (cache, [])
  | (r, env) :: rest =>
    let res := countryHandler cache r env
    let tail := serveAll res.cache rest
    (tail.1, res :: tail.2)

/-! ## The outbound URL as the specification words it -/

/-- The outbound calls of a trace, in order. -/
def upstreamCalls (trace : List Event) : List Event :=
  trace.filter Event.isUpstream

/-- An upper-case hexadecimal digit. -/
def hexUpper (n : Nat) : Char :=
  if n < 10 then Char.ofNat (48 + n) else Char.ofNat (55 + n)

/-- Whether URL-encoding a path segment escapes the byte `c` (`url.PathEscape`):
letters, digits and `- _ . ~ $ & + : = @` stay, every other byte is escaped. -/
def shouldEscape (c : Nat) : Bool :=
  if (97 ≤ c ∧ c ≤ 122) ∨ (65 ≤ c ∧ c ≤ 90) ∨ (48 ≤ c ∧ c ≤ 57) then false
  else if c = 45 ∨ c = 95 ∨ c = 46 ∨ c = 126 then false
  else if c = 36 ∨ c = 38 ∨ c = 43 ∨ c = 58 ∨ c = 61 ∨ c = 64 then false
  else true

/-- One byte of a URL-encoded path segment: itself, or `%XX`. -/
def escapeByte (c : Nat) : String :=
  if shouldEscape c then String.mk ['%', hexUpper (c / 16), hexUpper (c % 16)]
  else String.singleton (Char.ofNat c)

/-- The URL-encoded form of a name, byte by byte over its UTF-8 encoding. -/
def pathEscape (s : String) : String :=
  String.join ((s.data.flatMap String.utf8EncodeChar).map (fun b => escapeByte b.toNat))

/-- The outbound URL in the words of the specification,
`https://<upstream-host>/v3.1/name/<urlencoded-name>`: the fixed prefix
followed by the URL-encoded name. The handler builds `upstreamURL` instead. -/
def specURL (name : String) : String :=
  "https://restcountries.com/v3.1/name/" ++ pathEscape name

/-! ## The URL that is requested: `net/url` on the handler's string -/

/-- The bytes of a sequence of characters, in UTF-8. -/
def charsBytes (cs : List Char) : List Nat :=
  (cs.flatMap String.utf8EncodeChar).map UInt8.toNat

/-- The bytes of a Go string. -/
def utf8Bytes (s : String) : List Nat :=
  charsBytes s.data

/-- `strings.Cut` at a one-character separator: the part before its first
occurrence, and the part after it when it occurs. -/
def cutAt (sep : Char) : List Char → List Char × Option (List Char)
  | [] => ([], none)
  | c :: rest =>
    if c = sep then ([], some rest)
    else ((cutAt sep rest).1.cons c, (cutAt sep rest).2)

/-- A control byte, which `url.Parse` refuses (`stringContainsCTLByte`). -/
def isCTLByte (b : Nat) : Bool :=
  decide (b < 32) || decide (b = 127)

/-- A hexadecimal digit (`ishex`). -/
def ishex (b : Nat) : Bool :=
  (decide (48 ≤ b) && decide (b ≤ 57)) || (decide (97 ≤ b) && decide (b ≤ 102)) ||
    (decide (65 ≤ b) && decide (b ≤ 70))

/-- The value of a hexadecimal digit (`unhex`). -/
def unhex (b : Nat) : Nat :=
  if 48 ≤ b ∧ b ≤ 57 then b - 48
  else if 97 ≤ b ∧ b ≤ 102 then b - 97 + 10
  else if 65 ≤ b ∧ b ≤ 70 then b - 65 + 10
  else 0

/-- Decoding of percent-escapes (`unescape` for a path or a fragment): `none`
when a `%` is not followed by two hexadecimal digits. The first argument
bounds the number of steps; the length of the input is enough. -/
def unescapeFuel : Nat → List Nat → Option (List Nat)
  | 0, _ => some []
  | _ + 1, [] => some []
  | fuel + 1, c :: rest =>
    if c = 37 then
      match rest with
      | a :: b :: rest2 =>
        if ishex a && ishex b then
          (unescapeFuel fuel rest2).map (fun tail => (unhex a * 16 + unhex b) :: tail)
        else none
      | _ => none
    else (unescapeFuel fuel rest).map (fun tail => c :: tail)

/-- Decoding of the percent-escapes of a byte string. -/
def unescape (bs : List Nat) : Option (List Nat) :=
  unescapeFuel bs.length bs

/-- Whether `escape` in path mode escapes the byte `c`: as for a path segment,
except that `/ ; ,` stay. -/
def shouldEscapeInPath (c : Nat) : Bool :=
  shouldEscape c && !(decide (c = 47) || decide (c = 59) || decide (c = 44))

/-- One byte of an escaped path: itself, or `%XX`. -/
def escapePathByte (c : Nat) : String :=
  if shouldEscapeInPath c then String.mk ['%', hexUpper (c / 16), hexUpper (c % 16)]
  else String.singleton (Char.ofNat c)

/-- The path re-escaped from its decoded bytes (`escape(u.Path, encodePath)`). -/
def escapePath (bs : List Nat) : String :=
  String.join (bs.map escapePathByte)

/-- A byte that may stand in an already encoded path (`validEncoded`): the
sub-delimiters `! $ & ' ( ) * + , ; = : @`, the brackets, `%`, and every byte
that path mode does not escape. -/
def validEncodedByte (c : Nat) : Bool :=
  decide (c ∈ [33, 36, 38, 39, 40, 41, 42, 43, 44, 59, 61, 58, 64, 91, 93, 37]) ||
    !shouldEscapeInPath c

/-- Whether a raw path is kept as it came (`validEncoded(u.RawPath, encodePath)`). -/
def validEncoded (bs : List Nat) : Bool :=
  bs.all validEncodedByte

/-- The URL `net/http` requests when the handler's `upstreamURL name` is
parsed (`url.Parse`) and written back (`URL.RequestURI` after scheme and host),
`none` when the string does not parse. The name is cut at its first `#` (the
fragment is not sent), a control byte before the fragment is refused, the rest
is cut at its first `?` into path and query, and bad percent-escapes in path or
fragment are refused. The path goes out as it came when it is validly encoded
(it is then ASCII), else re-escaped from its decoded bytes; the query goes out
as it came. -/
def requestedURL (name : String) : Option String :=
  let u := (cutAt '#' name.data).1
  let frag := ((cutAt '#' name.data).2).getD []
  if (charsBytes u).any isCTLByte then none
  else
    let raw := charsBytes ("/v3.1/name/".data ++ (cutAt '?' u).1)
    match unescape raw, unescape (charsBytes frag) with
    | some path, some _ =>
      let escaped :=
        if validEncoded raw then String.mk (raw.map Char.ofNat) else escapePath path
      some ("https://restcountries.com" ++ escaped ++
        match (cutAt '?' u).2 with
        | none => ""
        | some q => "?" ++ String.mk q)
    | _, _ => none

/-- A byte on which the handler's string and the URL-encoded name agree: no
control byte and none of `/ ; , ? # % ! ' ( ) * [ ]`. -/
def plainByte (b : Nat) : Bool :=
  !isCTLByte b && !decide (b ∈ [47, 59, 44, 63, 35, 37, 33, 39, 40, 41, 42, 91, 93])

/-- A byte that parsing leaves in the path and that is not kept raw by
`validEncoded` unless path mode keeps it: no control byte and none of
`? # % ! ' ( ) * [ ]`. -/
def pathSafeByte (b : Nat) : Bool :=
  !isCTLByte b && !decide (b ∈ [63, 35, 37, 33, 39, 40, 41, 42, 91, 93])

/-! ## Store lemmas -/

theorem GoMap.lookup_filter_ne {V : Type} (m : List (String × V)) (key k : String)
    (h : key ≠ k) :
    GoMap.lookup (m.filter (fun p => !decide (p.1 = key))) k = GoMap.lookup m k := by
  induction m with
  | nil => rfl
  | cons p rest ih =>
    obtain ⟨a, b⟩ := p
    by_cases ha : a = key
    · subst ha
      simp [List.filter_cons, GoMap.lookup, h, ih]
    · by_cases hk : a = k
      · subst hk
        simp [List.filter_cons, GoMap.lookup, ha]
      · simp [List.filter_cons, GoMap.lookup, ha, hk, ih]

theorem GoMap.lookup_assign_same {V : Type} (m : List (String × V)) (key : String) (v : V) :
    GoMap.lookup (GoMap.assign m key v) key = some v := by
  simp [GoMap.assign, GoMap.lookup]

theorem GoMap.lookup_assign_other {V : Type} (m : List (String × V)) (key k : String) (v : V)
    (h : key ≠ k) :
    GoMap.lookup (GoMap.assign m key v) k = GoMap.lookup m k := by
  simp [GoMap.assign, GoMap.lookup, h, GoMap.lookup_filter_ne m key k h]

theorem MemoryCache.Get_Set_same (c : MemoryCache) (key : String) (v : Value) :
    (c.Set key v).Get key = (v, true) := by
  simp [MemoryCache.Get, MemoryCache.Set, GoMap.lookup_assign_same]

theorem MemoryCache.Get_Set_other (c : MemoryCache) (key k : String) (v : Value)
    (h : key ≠ k) :
    (c.Set key v).Get k = c.Get k := by
  simp [MemoryCache.Get, MemoryCache.Set, GoMap.lookup_assign_other c.data key k v h]

theorem CacheOp.Get_apply_other (c : MemoryCache) (op : CacheOp) (k : String)
    (h : op.key ≠ k) :
    (CacheOp.apply c op).Get k = c.Get k := by
  cases op with
  | get key => rfl
  | set key value => exact MemoryCache.Get_Set_other c key k value h

theorem Get_runOps_other (ops : List CacheOp) (c : MemoryCache) (k : String)
    (h : ∀ op ∈ ops, op.key ≠ k) :
    (runOps c ops).Get k = c.Get k := by
  induction ops generalizing c with
  | nil => rfl
  | cons op rest ih =>
    have hop : op.key ≠ k := h op (List.mem_cons_self op rest)
    have hrest : ∀ o ∈ rest, o.key ≠ k := fun o ho => h o (List.mem_cons_of_mem op ho)
    show (runOps (CacheOp.apply c op) rest).Get k = c.Get k
    rw [ih (CacheOp.apply c op) hrest, CacheOp.Get_apply_other c op k hop]

theorem Get_runSets_other (sets : List (String × Value)) (c : MemoryCache) (k : String)
    (h : ∀ p ∈ sets, p.1 ≠ k) :
    (runSets c sets).Get k = c.Get k := by
  induction sets generalizing c with
  | nil => rfl
  | cons p rest ih =>
    have hp : p.1 ≠ k := h p (List.mem_cons_self p rest)
    have hrest : ∀ q ∈ rest, q.1 ≠ k := fun q hq => h q (List.mem_cons_of_mem p hq)
    show (runSets (c.Set p.1 p.2) rest).Get k = c.Get k
    rw [ih (c.Set p.1 p.2) hrest, MemoryCache.Get_Set_other c p.1 k p.2 hp]


theorem GoMap.lookup_absent {V : Type} (m : List (String × V)) (key : String)
    (h : ∀ p ∈ m, p.1 ≠ key) : GoMap.lookup m key = none := by
  induction m with
  | nil => rfl
  | cons p rest ih =>
    obtain ⟨a, b⟩ := p
    have ha : a ≠ key := h (a, b) (List.mem_cons_self _ _)
    have hrest : ∀ q ∈ rest, q.1 ≠ key := fun q hq => h q (List.mem_cons_of_mem _ hq)
    simp [GoMap.lookup, ha, ih hrest]

theorem MemoryCache.Get_New (k : String) : NewMemoryCache.Get k = (Value.nil, false) := rfl

/-! ## Selection lemmas -/

theorem matchLoop_found (name : String) (l : List restCountry) (rc : restCountry)
    (h : matchLoop name l = (rc, true)) :
    ∃ pre post, l = pre ++ rc :: post ∧ (∀ c ∈ pre, c.Name.Common ≠ name) ∧
      rc.Name.Common = name := by
  induction l with
  | nil => simp [matchLoop] at h
  | cons c rest ih =>
    by_cases hc : c.Name.Common = name
    · simp only [matchLoop, hc, if_true, Prod.mk.injEq, and_true] at h
      subst h
      exact ⟨[], rest, rfl, by simp, hc⟩
    · simp only [matchLoop, hc, if_false] at h
      obtain ⟨pre, post, hl, hpre, hrc⟩ := ih h
      refine ⟨c :: pre, post, by simp [hl], ?_, hrc⟩
      intro d hd
      rcases List.mem_cons.mp hd with hd | hd
      · subst hd; exact hc
      · exact hpre d hd

theorem matchLoop_not_found (name : String) (l : List restCountry) (rc : restCountry)
    (h : matchLoop name l = (rc, false)) :
    ∀ c ∈ l, c.Name.Common ≠ name := by
  induction l with
  | nil => simp
  | cons c rest ih =>
    by_cases hc : c.Name.Common = name
    · simp [matchLoop, hc] at h
    · simp only [matchLoop, hc, if_false] at h
      intro d hd
      rcases List.mem_cons.mp hd with hd | hd
      · subst hd; exact hc
      · exact ih h d hd

/-! ## Handler lemmas -/

theorem countryHandler_empty_name (cache : MemoryCache) (r : Request) (env : World)
    (h : Values.Get r.query "name" = "") :
    countryHandler cache r env =
      { cache := cache
        outcome := .responded (httpError "name query param is required" StatusBadRequest)
        trace := [] } := by
  simp [countryHandler, h]

theorem countryHandler_hit (cache : MemoryCache) (r : Request) (env : World) (v : Value)
    (hname : Values.Get r.query "name" ≠ "")
    (hhit : cache.Get (Values.Get r.query "name") = (v, true)) :
    countryHandler cache r env =
      { cache := cache
        outcome := .responded (writeJSON v)
        trace := [.cacheGet (Values.Get r.query "name")] } := by
  simp [countryHandler, hname, hhit]

theorem Get_fst_of_absent (cache : MemoryCache) (k : String) (h : (cache.Get k).2 = false) :
    cache.Get k = (Value.nil, false) := by
  unfold MemoryCache.Get at h ⊢
  cases hl : GoMap.lookup cache.data k with
  | none => rfl
  | some v => simp [hl] at h

theorem countryHandler_miss_success (cache : MemoryCache) (r : Request) (env : World)
    (first : restCountry) (rest : List restCountry) (capital : String) (caps : List String)
    (hname : Values.Get r.query "name" ≠ "")
    (hmiss : (cache.Get (Values.Get r.query "name")).2 = false)
    (hup : env.upstream = .decoded (first :: rest))
    (hcap : (selectCandidate (Values.Get r.query "name") first rest).Capital = capital :: caps) :
    countryHandler cache r env =
      { cache := cache.Set (Values.Get r.query "name") (.country
          { Name := (selectCandidate (Values.Get r.query "name") first rest).Name.Common
            Capital := capital
            Currency := extractCurrency
              (selectCandidate (Values.Get r.query "name") first rest).Currencies env.pick
            Population := (selectCandidate (Values.Get r.query "name") first rest).Population })
        outcome := .responded (writeJSON (.country
          { Name := (selectCandidate (Values.Get r.query "name") first rest).Name.Common
            Capital := capital
            Currency := extractCurrency
              (selectCandidate (Values.Get r.query "name") first rest).Currencies env.pick
            Population := (selectCandidate (Values.Get r.query "name") first rest).Population }))
        trace := [.cacheGet (Values.Get r.query "name"),
                  .upstreamDo (upstreamURL (Values.Get r.query "name")),
                  .cacheSet (Values.Get r.query "name") (.country
          { Name := (selectCandidate (Values.Get r.query "name") first rest).Name.Common
            Capital := capital
            Currency := extractCurrency
              (selectCandidate (Values.Get r.query "name") first rest).Currencies env.pick
            Population := (selectCandidate (Values.Get r.query "name") first rest).Population })] } := by
  have hget := Get_fst_of_absent cache _ hmiss
  simp [countryHandler, hname, hget, hup, hcap]

theorem countryHandler_miss_panic (cache : MemoryCache) (r : Request) (env : World)
    (first : restCountry) (rest : List restCountry)
    (hname : Values.Get r.query "name" ≠ "")
    (hmiss : (cache.Get (Values.Get r.query "name")).2 = false)
    (hup : env.upstream = .decoded (first :: rest))
    (hcap : (selectCandidate (Values.Get r.query "name") first rest).Capital = []) :
    countryHandler cache r env =
      { cache := cache
        outcome := .panicked "runtime error: index out of range [0] with length 0"
        trace := [.cacheGet (Values.Get r.query "name"),
                  .upstreamDo (upstreamURL (Values.Get r.query "name"))] } := by
  have hget := Get_fst_of_absent cache _ hmiss
  simp [countryHandler, hname, hget, hup, hcap]

/-- The store after a request is the store before it, or the store before it
with the query name, absent until then, set to a record. -/
theorem countryHandler_cache_cases (cache : MemoryCache) (r : Request) (env : World) :
    (countryHandler cache r env).cache = cache ∨
      ((cache.Get (Values.Get r.query "name")).2 = false ∧
        ∃ rec : Country, (countryHandler cache r env).cache =
          cache.Set (Values.Get r.query "name") (.country rec)) := by
  by_cases hname : Values.Get r.query "name" = ""
  · left; rw [countryHandler_empty_name cache r env hname]
  · cases hg : cache.Get (Values.Get r.query "name") with
    | mk v found =>
      cases found with
      | true => left; rw [countryHandler_hit cache r env v hname hg]
      | false =>
        have hmiss : (cache.Get (Values.Get r.query "name")).2 = false := by rw [hg]
        cases hup : env.upstream with
        | newRequestErr msg => left; simp [countryHandler, hname, hg, hup]
        | doErr msg => left; simp [countryHandler, hname, hg, hup]
        | decodeErr msg => left; simp [countryHandler, hname, hg, hup]
        | decoded apiResp =>
          cases apiResp with
          | nil => left; simp [countryHandler, hname, hg, hup]
          | cons first rest =>
            cases hcap : (selectCandidate (Values.Get r.query "name") first rest).Capital with
            | nil =>
              left
              rw [countryHandler_miss_panic cache r env first rest hname hmiss hup hcap]
            | cons capital caps =>
              right
              refine ⟨rfl, ?_⟩
              rw [countryHandler_miss_success cache r env first rest capital caps hname hmiss
                hup hcap]
              exact ⟨_, rfl⟩

/-- One request keeps every entry the store already holds. -/
theorem countryHandler_keeps_entry (cache : MemoryCache) (r : Request) (env : World)
    (k : String) (v : Value) (h : cache.Get k = (v, true)) :
    (countryHandler cache r env).cache.Get k = (v, true) := by
  rcases countryHandler_cache_cases cache r env with hc | ⟨hmiss, rec, hc⟩
  · rw [hc]; exact h
  · rw [hc]
    have hne : Values.Get r.query "name" ≠ k := by
      intro heq
      rw [heq, h] at hmiss
      simp at hmiss
    rw [MemoryCache.Get_Set_other cache _ k _ hne]
    exact h

/-! ## Claims about the store -/

/-- C2: for every store, key `k` and value `v`, after `Set(k, v)` followed by any
sequence of `Set` and `Get` calls on keys other than `k`, `Get(k)` returns
`(v, true)`. -/
theorem Get_after_Set_and_other_ops (c : MemoryCache) (k : String) (v : Value)
    (ops : List CacheOp) (hops : ∀ op ∈ ops, op.key ≠ k) :
    (runOps (c.Set k v) ops).Get k = (v, true) := by
  rw [Get_runOps_other ops (c.Set k v) k hops]
  exact MemoryCache.Get_Set_same c k v

/-- C2 at the test `TestMemoryCache_SetAndGet`, with calls on other keys in between. -/
theorem Get_after_Set_and_other_ops_witness :
    (∀ op ∈ [CacheOp.get "Peru", CacheOp.set "Chile" (Value.str "x"), CacheOp.get "Chile"],
        op.key ≠ "India") ∧
      (runOps (NewMemoryCache.Set "India" (Value.str "TestValue"))
          [CacheOp.get "Peru", CacheOp.set "Chile" (Value.str "x"), CacheOp.get "Chile"]).Get
        "India" = (Value.str "TestValue", true) :=
  ⟨by decide,
   Get_after_Set_and_other_ops NewMemoryCache "India" (Value.str "TestValue")
     [CacheOp.get "Peru", CacheOp.set "Chile" (Value.str "x"), CacheOp.get "Chile"]
     (by decide)⟩

/-- C9: on a store built by `NewMemoryCache` followed by any finite sequence of
`Set` calls none of which uses key `k`, `Get(k)` returns the nil value and
`present = false`. -/
theorem Get_never_Set (k : String) (sets : List (String × Value))
    (hsets : ∀ p ∈ sets, p.1 ≠ k) :
    (runSets NewMemoryCache sets).Get k = (Value.nil, false) := by
  rw [Get_runSets_other sets NewMemoryCache k hsets]
  rfl

/-- C9 at a store holding two other keys. -/
theorem Get_never_Set_witness :
    (∀ p ∈ [("Peru", Value.str "x"), ("Chile", Value.nil)], p.1 ≠ "India") ∧
      (runSets NewMemoryCache [("Peru", Value.str "x"), ("Chile", Value.nil)]).Get "India" =
        (Value.nil, false) :=
  ⟨by decide, Get_never_Set "India" [("Peru", Value.str "x"), ("Chile", Value.nil)] (by decide)⟩

/-- C10: for every store, key `k` and values `v1`, `v2`, after `Set(k, v1)` then
`Set(k, v2)`, `Get(k)` returns `(v2, true)`; `Set` has no error outcome: on any
store, whether `k` was present or absent before, it yields a store in which
`Get(k)` returns `(v, true)`. -/
theorem Set_overwrites (c : MemoryCache) (k : String) (v1 v2 : Value) :
    ((c.Set k v1).Set k v2).Get k = (v2, true) ∧
      (∀ v : Value, ∃ c2 : MemoryCache, c.Set k v = c2 ∧ c2.Get k = (v, true)) :=
  ⟨MemoryCache.Get_Set_same (c.Set k v1) k v2,
   fun v => ⟨c.Set k v, rfl, MemoryCache.Get_Set_same c k v⟩⟩

/-! ## Claims about the handler -/

/-- C1: for every non-empty candidate list `first :: rest` and every query
name, the selected candidate is the first one in the list whose `Name.Common`
equals the query name exactly; if no candidate has that name, it is the first
element of the list. With candidates Bharat, India and query "India" the second
is selected; with the only candidate Foo and query "India" the first is. -/
theorem selectCandidate_exact_else_first (name : String) (first : restCountry)
    (rest : List restCountry) :
    ((∃ pre post, first :: rest = pre ++ selectCandidate name first rest :: post ∧
          (∀ c ∈ pre, c.Name.Common ≠ name) ∧
          (selectCandidate name first rest).Name.Common = name) ∨
      ((∀ c ∈ first :: rest, c.Name.Common ≠ name) ∧
          selectCandidate name first rest = first)) ∧
    (∀ (cap1 cap2 : List String) (pop1 pop2 : Int) (cur1 cur2 : List (String × restCurrency)),
        selectCandidate "India" ⟨⟨"Bharat"⟩, cap1, pop1, cur1⟩ [⟨⟨"India"⟩, cap2, pop2, cur2⟩] =
          ⟨⟨"India"⟩, cap2, pop2, cur2⟩) ∧
    (∀ (cap : List String) (pop : Int) (cur : List (String × restCurrency)),
        selectCandidate "India" ⟨⟨"Foo"⟩, cap, pop, cur⟩ [] = ⟨⟨"Foo"⟩, cap, pop, cur⟩) := by
  refine ⟨?_, ?_, ?_⟩
  · cases hm : matchLoop name (first :: rest) with
    | mk rc found =>
      cases found with
      | true =>
        left
        have hsel : selectCandidate name first rest = rc := by
          simp [selectCandidate, hm]
        rw [hsel]
        exact matchLoop_found name (first :: rest) rc hm
      | false =>
        right
        refine ⟨matchLoop_not_found name (first :: rest) rc hm, ?_⟩
        simp [selectCandidate, hm]
  · intro cap1 cap2 pop1 pop2 cur1 cur2
    simp [selectCandidate, matchLoop]
  · intro cap pop cur
    simp [selectCandidate, matchLoop]

/-- C3: for every non-empty query name present in the store, the handler
responds with status 200 and `Content-Type: application/json`, the body is the
JSON serialization of the stored value (as `Encode` writes it, ended by a
newline), no upstream call is made and the store is left unchanged. -/
theorem cache_hit_served_from_store (cache : MemoryCache) (r : Request) (env : World)
    (v : Value)
    (hname : Values.Get r.query "name" ≠ "")
    (hhit : cache.Get (Values.Get r.query "name") = (v, true)) :
    ∃ resp : Response,
      (countryHandler cache r env).outcome = .responded resp ∧
      resp.status = 200 ∧
      resp.contentType = "application/json" ∧
      resp.body = jsonMarshal v ++ "\n" ∧
      noUpstream (countryHandler cache r env).trace ∧
      (countryHandler cache r env).cache = cache := by
  rw [countryHandler_hit cache r env v hname hhit]
  refine ⟨writeJSON v, rfl, rfl, rfl, rfl, ?_, rfl⟩
  intro e he
  simp only [List.mem_singleton] at he
  subst he
  rfl

/-- C3 at the test `TestCountryHandler_FromCache`: the store holds India, the
upstream is down, and the response is the stored record with `"name":"India"`
and `"capital":"New Delhi"` in its body. -/
theorem cache_hit_served_from_store_witness :
    Values.Get (Request.mk [("name", "India")]).query "name" ≠ "" ∧
    (NewMemoryCache.Set "India" (.country ⟨"India", "New Delhi", "₹", 123⟩)).Get
        (Values.Get (Request.mk [("name", "India")]).query "name") =
      (.country ⟨"India", "New Delhi", "₹", 123⟩, true) ∧
    jsonMarshal (.country ⟨"India", "New Delhi", "₹", 123⟩) =
      "\x7b\"name\":\"India\",\"capital\":\"New Delhi\",\"currency\":\"₹\",\"population\":123\x7d" ∧
    ∃ resp : Response,
      (countryHandler (NewMemoryCache.Set "India" (.country ⟨"India", "New Delhi", "₹", 123⟩))
          ⟨[("name", "India")]⟩ ⟨.doErr "dial tcp: no route to host", 0⟩).outcome =
        .responded resp ∧
      resp.status = 200 ∧
      resp.contentType = "application/json" ∧
      resp.body = jsonMarshal (.country ⟨"India", "New Delhi", "₹", 123⟩) ++ "\n" ∧
      noUpstream (countryHandler
          (NewMemoryCache.Set "India" (.country ⟨"India", "New Delhi", "₹", 123⟩))
          ⟨[("name", "India")]⟩ ⟨.doErr "dial tcp: no route to host", 0⟩).trace ∧
      (countryHandler (NewMemoryCache.Set "India" (.country ⟨"India", "New Delhi", "₹", 123⟩))
          ⟨[("name", "India")]⟩ ⟨.doErr "dial tcp: no route to host", 0⟩).cache =
        NewMemoryCache.Set "India" (.country ⟨"India", "New Delhi", "₹", 123⟩) :=
  ⟨by decide, by decide, by decide,
   cache_hit_served_from_store
     (NewMemoryCache.Set "India" (.country ⟨"India", "New Delhi", "₹", 123⟩))
     ⟨[("name", "India")]⟩ ⟨.doErr "dial tcp: no route to host", 0⟩
     (.country ⟨"India", "New Delhi", "₹", 123⟩) (by decide) (by decide)⟩

/-- C4 (the code at the failing input): on an empty store, the request
`name=Antarctica` answered upstream by the single candidate Antarctica with an
empty capital list ends in the run-time panic of `rc.Capital[0]`: no response
at all is written, in particular no HTTP 500; the store is left unchanged. -/
theorem missing_capital_panics :
    (countryHandler NewMemoryCache ⟨[("name", "Antarctica")]⟩
        ⟨.decoded [⟨⟨"Antarctica"⟩, [], 1000, []⟩], 0⟩).outcome =
      .panicked "runtime error: index out of range [0] with length 0" ∧
    (∀ resp : Response,
      (countryHandler NewMemoryCache ⟨[("name", "Antarctica")]⟩
        ⟨.decoded [⟨⟨"Antarctica"⟩, [], 1000, []⟩], 0⟩).outcome ≠ .responded resp) ∧
    (countryHandler NewMemoryCache ⟨[("name", "Antarctica")]⟩
        ⟨.decoded [⟨⟨"Antarctica"⟩, [], 1000, []⟩], 0⟩).cache = NewMemoryCache := by
  have h : countryHandler NewMemoryCache ⟨[("name", "Antarctica")]⟩
      ⟨.decoded [⟨⟨"Antarctica"⟩, [], 1000, []⟩], 0⟩ =
      { cache := NewMemoryCache
        outcome := .panicked "runtime error: index out of range [0] with length 0"
        trace := [.cacheGet "Antarctica",
                  .upstreamDo "https://restcountries.com/v3.1/name/Antarctica"] } := by
    decide
  rw [h]
  exact ⟨rfl, ⟨fun resp hresp => Outcome.noConfusion hresp, rfl⟩⟩

/-- C7: for every non-empty query name absent from the store, if the upstream
response decodes to an empty candidate list then the handler responds with
status 404 and the plain-text body `country not found` (written as one line),
and the store is unchanged: the query name is still absent afterwards. -/
theorem empty_upstream_not_found (cache : MemoryCache) (r : Request) (env : World)
    (hname : Values.Get r.query "name" ≠ "")
    (hmiss : (cache.Get (Values.Get r.query "name")).2 = false)
    (hup : env.upstream = .decoded []) :
    ∃ resp : Response,
      (countryHandler cache r env).outcome = .responded resp ∧
      resp.status = 404 ∧
      resp.contentType = "text/plain; charset=utf-8" ∧
      resp.body = "country not found" ++ "\n" ∧
      (countryHandler cache r env).cache = cache ∧
      ((countryHandler cache r env).cache.Get (Values.Get r.query "name")).2 = false := by
  have hget := Get_fst_of_absent cache _ hmiss
  have hrun : countryHandler cache r env =
      { cache := cache
        outcome := .responded (httpError "country not found" StatusNotFound)
        trace := [.cacheGet (Values.Get r.query "name"),
                  .upstreamDo (upstreamURL (Values.Get r.query "name"))] } := by
    simp [countryHandler, hname, hget, hup]
  rw [hrun]
  exact ⟨_, rfl, rfl, rfl, rfl, rfl, hmiss⟩

/-- C7 at scenario C: empty store, query Atlantis, upstream answers `[]`. -/
theorem empty_upstream_not_found_witness :
    Values.Get (Request.mk [("name", "Atlantis")]).query "name" ≠ "" ∧
    (NewMemoryCache.Get (Values.Get (Request.mk [("name", "Atlantis")]).query "name")).2 =
      false ∧
    (World.mk (.decoded []) 0).upstream = .decoded [] ∧
    ∃ resp : Response,
      (countryHandler NewMemoryCache ⟨[("name", "Atlantis")]⟩ ⟨.decoded [], 0⟩).outcome =
        .responded resp ∧
      resp.status = 404 ∧
      resp.contentType = "text/plain; charset=utf-8" ∧
      resp.body = "country not found" ++ "\n" ∧
      (countryHandler NewMemoryCache ⟨[("name", "Atlantis")]⟩ ⟨.decoded [], 0⟩).cache =
        NewMemoryCache ∧
      ((countryHandler NewMemoryCache ⟨[("name", "Atlantis")]⟩ ⟨.decoded [], 0⟩).cache.Get
        (Values.Get (Request.mk [("name", "Atlantis")]).query "name")).2 = false :=
  ⟨by decide, by decide, rfl,
   empty_upstream_not_found NewMemoryCache ⟨[("name", "Atlantis")]⟩ ⟨.decoded [], 0⟩
     (by decide) (by decide) rfl⟩

/-- C8: for every store, a request whose `name` query parameter is missing or
empty is answered with status 400 and a plain-text error body, without reading
or writing the store and without making an upstream call (the handler performs
no action at all), and the store is unchanged. -/
theorem missing_name_rejected (cache : MemoryCache) (r : Request) (env : World)
    (h : (∀ p ∈ r.query, p.1 ≠ "name") ∨ GoMap.lookup r.query "name" = some "") :
    ∃ resp : Response,
      (countryHandler cache r env).outcome = .responded resp ∧
      resp.status = 400 ∧
      resp.contentType = "text/plain; charset=utf-8" ∧
      resp.body = "name query param is required" ++ "\n" ∧
      (countryHandler cache r env).trace = [] ∧
      noStore (countryHandler cache r env).trace ∧
      noUpstream (countryHandler cache r env).trace ∧
      (countryHandler cache r env).cache = cache := by
  have hname : Values.Get r.query "name" = "" := by
    rcases h with h | h
    · simp [Values.Get, GoMap.lookup_absent r.query "name" h]
    · simp [Values.Get, h]
  rw [countryHandler_empty_name cache r env hname]
  refine ⟨_, rfl, rfl, rfl, rfl, rfl, ?_, ?_, rfl⟩
  · intro e he; cases he
  · intro e he; cases he

/-- C8 at a request that carries another parameter but no `name`, on a store
that holds the empty key. -/
theorem missing_name_rejected_witness :
    ((∀ p ∈ (Request.mk [("q", "India")]).query, p.1 ≠ "name") ∨
      GoMap.lookup (Request.mk [("q", "India")]).query "name" = some "") ∧
    ∃ resp : Response,
      (countryHandler (NewMemoryCache.Set "" (.str "x")) ⟨[("q", "India")]⟩
          ⟨.decoded [], 0⟩).outcome = .responded resp ∧
      resp.status = 400 ∧
      resp.contentType = "text/plain; charset=utf-8" ∧
      resp.body = "name query param is required" ++ "\n" ∧
      (countryHandler (NewMemoryCache.Set "" (.str "x")) ⟨[("q", "India")]⟩
          ⟨.decoded [], 0⟩).trace = [] ∧
      noStore (countryHandler (NewMemoryCache.Set "" (.str "x")) ⟨[("q", "India")]⟩
          ⟨.decoded [], 0⟩).trace ∧
      noUpstream (countryHandler (NewMemoryCache.Set "" (.str "x")) ⟨[("q", "India")]⟩
          ⟨.decoded [], 0⟩).trace ∧
      (countryHandler (NewMemoryCache.Set "" (.str "x")) ⟨[("q", "India")]⟩
          ⟨.decoded [], 0⟩).cache = NewMemoryCache.Set "" (.str "x") :=
  ⟨Or.inl (by decide),
   missing_name_rejected (NewMemoryCache.Set "" (.str "x")) ⟨[("q", "India")]⟩
     ⟨.decoded [], 0⟩ (Or.inl (by decide))⟩

/-- C5: for every store in which the non-empty query name `q` is absent and
every upstream response for which the request for `q` succeeds (a response
with status 200), the response is the JSON document of a record `rec`, after
the request `Get(q)` returns `(rec, true)`, and an immediately following
identical request (whatever the upstream would do) responds with status 200
and the same body, headers included, without making an upstream call. -/
theorem populate_then_hit (cache : MemoryCache) (r : Request) (env env2 : World)
    (resp : Response)
    (hname : Values.Get r.query "name" ≠ "")
    (hmiss : (cache.Get (Values.Get r.query "name")).2 = false)
    (hok : (countryHandler cache r env).outcome = .responded resp)
    (hstatus : resp.status = StatusOK) :
    ∃ rec : Country,
      resp = writeJSON (.country rec) ∧
      (countryHandler cache r env).cache.Get (Values.Get r.query "name") =
        (.country rec, true) ∧
      ∃ resp2 : Response,
        (countryHandler (countryHandler cache r env).cache r env2).outcome =
          .responded resp2 ∧
        resp2.status = 200 ∧
        resp2.body = resp.body ∧
        resp2 = resp ∧
        noUpstream (countryHandler (countryHandler cache r env).cache r env2).trace := by
  have hget := Get_fst_of_absent cache _ hmiss
  have hfail : ∀ msg code, code ≠ StatusOK → Outcome.responded (httpError msg code) ≠
      Outcome.responded resp := by
    intro msg code hcode heq
    injection heq with heq
    subst heq
    exact hcode hstatus
  cases hup : env.upstream with
  | newRequestErr msg =>
    exfalso
    refine hfail msg StatusInternalServerError (by decide) ?_
    rw [← hok]; simp [countryHandler, hname, hget, hup]
  | doErr msg =>
    exfalso
    refine hfail msg StatusInternalServerError (by decide) ?_
    rw [← hok]; simp [countryHandler, hname, hget, hup]
  | decodeErr msg =>
    exfalso
    refine hfail msg StatusInternalServerError (by decide) ?_
    rw [← hok]; simp [countryHandler, hname, hget, hup]
  | decoded apiResp =>
    cases apiResp with
    | nil =>
      exfalso
      refine hfail "country not found" StatusNotFound (by decide) ?_
      rw [← hok]; simp [countryHandler, hname, hget, hup]
    | cons first rest =>
      cases hcap : (selectCandidate (Values.Get r.query "name") first rest).Capital with
      | nil =>
        rw [countryHandler_miss_panic cache r env first rest hname hmiss hup hcap] at hok
        exact Outcome.noConfusion hok
      | cons capital caps =>
        rw [countryHandler_miss_success cache r env first rest capital caps hname hmiss hup
          hcap] at hok ⊢
        injection hok with hok
        subst hok
        refine ⟨_, rfl, MemoryCache.Get_Set_same cache _ _, ?_⟩
        rw [countryHandler_hit _ r env2 _ hname (MemoryCache.Get_Set_same cache _ _)]
        refine ⟨_, rfl, rfl, rfl, rfl, ?_⟩
        intro e he
        simp only [List.mem_singleton] at he
        subst he
        rfl

/-- C5 at scenario B: empty store, query India, the upstream answers with the
one candidate India; the second request finds the upstream down. -/
theorem populate_then_hit_witness :
    Values.Get (Request.mk [("name", "India")]).query "name" ≠ "" ∧
    (NewMemoryCache.Get (Values.Get (Request.mk [("name", "India")]).query "name")).2 = false ∧
    (countryHandler NewMemoryCache ⟨[("name", "India")]⟩
        ⟨.decoded [⟨⟨"India"⟩, ["New Delhi"], 1400000000, [("INR", ⟨"₹"⟩)]⟩], 0⟩).outcome =
      .responded (writeJSON (.country ⟨"India", "New Delhi", "₹", 1400000000⟩)) ∧
    (writeJSON (.country ⟨"India", "New Delhi", "₹", 1400000000⟩)).status = StatusOK ∧
    ∃ rec : Country,
      writeJSON (.country ⟨"India", "New Delhi", "₹", 1400000000⟩) = writeJSON (.country rec) ∧
      (countryHandler NewMemoryCache ⟨[("name", "India")]⟩
          ⟨.decoded [⟨⟨"India"⟩, ["New Delhi"], 1400000000, [("INR", ⟨"₹"⟩)]⟩], 0⟩).cache.Get
        (Values.Get (Request.mk [("name", "India")]).query "name") = (.country rec, true) ∧
      ∃ resp2 : Response,
        (countryHandler
            (countryHandler NewMemoryCache ⟨[("name", "India")]⟩
              ⟨.decoded [⟨⟨"India"⟩, ["New Delhi"], 1400000000, [("INR", ⟨"₹"⟩)]⟩], 0⟩).cache
            ⟨[("name", "India")]⟩ ⟨.doErr "dial tcp: no route to host", 7⟩).outcome =
          .responded resp2 ∧
        resp2.status = 200 ∧
        resp2.body = (writeJSON (.country ⟨"India", "New Delhi", "₹", 1400000000⟩)).body ∧
        resp2 = writeJSON (.country ⟨"India", "New Delhi", "₹", 1400000000⟩) ∧
        noUpstream (countryHandler
            (countryHandler NewMemoryCache ⟨[("name", "India")]⟩
              ⟨.decoded [⟨⟨"India"⟩, ["New Delhi"], 1400000000, [("INR", ⟨"₹"⟩)]⟩], 0⟩).cache
            ⟨[("name", "India")]⟩ ⟨.doErr "dial tcp: no route to host", 7⟩).trace :=
  ⟨by decide, by decide, by decide, rfl,
   populate_then_hit NewMemoryCache ⟨[("name", "India")]⟩
     ⟨.decoded [⟨⟨"India"⟩, ["New Delhi"], 1400000000, [("INR", ⟨"₹"⟩)]⟩], 0⟩
     ⟨.doErr "dial tcp: no route to host", 7⟩
     (writeJSON (.country ⟨"India", "New Delhi", "₹", 1400000000⟩))
     (by decide) (by decide) (by decide) rfl⟩

/-- C6: for every store, every key `k` present in it with value `v`, and every
finite sequence of handler requests (any query names, any upstream responses
or failures), after the sequence `Get(k)` still returns `(v, true)`; the
predicate "`k` maps to `v`" is preserved by every single request. -/
theorem stored_entry_never_updated (cache : MemoryCache) (k : String) (v : Value)
    (reqs : List (Request × World))
    (h : cache.Get k = (v, true)) :
    (serveAll cache reqs).1.Get k = (v, true) ∧
      ∀ (r : Request) (env : World), (countryHandler cache r env).cache.Get k = (v, true) := by
  refine ⟨?_, fun r env => countryHandler_keeps_entry cache r env k v h⟩
  induction reqs generalizing cache with
  | nil => exact h
  | cons p rest ih =>
    obtain ⟨r, env⟩ := p
    exact ih (countryHandler cache r env).cache (countryHandler_keeps_entry cache r env k v h)

/-- C6 at a store holding India, served a request for India under a different
upstream answer, a request that populates Peru, and a request that faults. -/
theorem stored_entry_never_updated_witness :
    (NewMemoryCache.Set "India" (.country ⟨"India", "New Delhi", "₹", 123⟩)).Get "India" =
      (.country ⟨"India", "New Delhi", "₹", 123⟩, true) ∧
    ((serveAll (NewMemoryCache.Set "India" (.country ⟨"India", "New Delhi", "₹", 123⟩))
        [(⟨[("name", "India")]⟩, ⟨.decoded [⟨⟨"India"⟩, ["Delhi"], 5, []⟩], 0⟩),
         (⟨[("name", "Peru")]⟩, ⟨.decoded [⟨⟨"Peru"⟩, ["Lima"], 33000000, [("PEN", ⟨"S/"⟩)]⟩], 0⟩),
         (⟨[("name", "Macau")]⟩, ⟨.decoded [⟨⟨"Macau"⟩, [], 600000, []⟩], 0⟩)]).1.Get "India" =
        (.country ⟨"India", "New Delhi", "₹", 123⟩, true) ∧
      ∀ (r : Request) (env : World),
        (countryHandler (NewMemoryCache.Set "India" (.country ⟨"India", "New Delhi", "₹", 123⟩))
          r env).cache.Get "India" = (.country ⟨"India", "New Delhi", "₹", 123⟩, true)) :=
  ⟨by decide,
   stored_entry_never_updated
     (NewMemoryCache.Set "India" (.country ⟨"India", "New Delhi", "₹", 123⟩)) "India"
     (.country ⟨"India", "New Delhi", "₹", 123⟩)
     [(⟨[("name", "India")]⟩, ⟨.decoded [⟨⟨"India"⟩, ["Delhi"], 5, []⟩], 0⟩),
      (⟨[("name", "Peru")]⟩, ⟨.decoded [⟨⟨"Peru"⟩, ["Lima"], 33000000, [("PEN", ⟨"S/"⟩)]⟩], 0⟩),
      (⟨[("name", "Macau")]⟩, ⟨.decoded [⟨⟨"Macau"⟩, [], 600000, []⟩], 0⟩)]
     (by decide)⟩

/-! ## Lemmas for the cache-miss path -/

theorem extractCurrency_nil (pick : Nat) : extractCurrency [] pick = "" := by
  simp [extractCurrency]

theorem extractCurrency_mem (Currencies : List (String × restCurrency)) (pick : Nat)
    (h : Currencies ≠ []) :
    ∃ e ∈ Currencies, extractCurrency Currencies pick = e.2.Symbol := by
  have hlen : 0 < Currencies.length := List.length_pos.mpr h
  have hlt : pick % Currencies.length < Currencies.length := Nat.mod_lt pick hlen
  refine ⟨Currencies[pick % Currencies.length], List.getElem_mem hlt, ?_⟩
  unfold extractCurrency
  rw [List.getElem?_eq_getElem hlt]
  generalize Currencies[pick % Currencies.length] = e
  obtain ⟨a, b⟩ := e
  rfl

theorem extractCurrency_single (e : String × restCurrency) (pick : Nat) :
    extractCurrency [e] pick = e.2.Symbol := by
  obtain ⟨e', he', heq⟩ := extractCurrency_mem [e] pick (by simp)
  rw [heq, List.mem_singleton.mp he']

theorem selectCandidate_mem (name : String) (first : restCountry) (rest : List restCountry) :
    selectCandidate name first rest ∈ first :: rest := by
  cases hm : matchLoop name (first :: rest) with
  | mk rc found =>
    cases found with
    | true =>
      have hsel : selectCandidate name first rest = rc := by simp [selectCandidate, hm]
      obtain ⟨pre, post, hl, _, _⟩ := matchLoop_found name (first :: rest) rc hm
      rw [hsel, hl]
      simp
    | false =>
      have hsel : selectCandidate name first rest = first := by simp [selectCandidate, hm]
      rw [hsel]
      exact List.mem_cons_self _ _

/-- A miss answered with status 200 went through the populate path: the
upstream decoded to a non-empty list whose selected candidate has a capital. -/
theorem countryHandler_miss_ok (cache : MemoryCache) (r : Request) (env : World)
    (resp : Response)
    (hname : Values.Get r.query "name" ≠ "")
    (hmiss : (cache.Get (Values.Get r.query "name")).2 = false)
    (hok : (countryHandler cache r env).outcome = .responded resp)
    (hstatus : resp.status = StatusOK) :
    ∃ first rest capital caps, env.upstream = .decoded (first :: rest) ∧
      (selectCandidate (Values.Get r.query "name") first rest).Capital = capital :: caps := by
  have hget := Get_fst_of_absent cache _ hmiss
  have hfail : ∀ msg code, code ≠ StatusOK → Outcome.responded (httpError msg code) ≠
      Outcome.responded resp := by
    intro msg code hcode heq
    injection heq with heq
    subst heq
    exact hcode hstatus
  cases hup : env.upstream with
  | newRequestErr msg =>
    exfalso
    refine hfail msg StatusInternalServerError (by decide) ?_
    rw [← hok]; simp [countryHandler, hname, hget, hup]
  | doErr msg =>
    exfalso
    refine hfail msg StatusInternalServerError (by decide) ?_
    rw [← hok]; simp [countryHandler, hname, hget, hup]
  | decodeErr msg =>
    exfalso
    refine hfail msg StatusInternalServerError (by decide) ?_
    rw [← hok]; simp [countryHandler, hname, hget, hup]
  | decoded apiResp =>
    cases apiResp with
    | nil =>
      exfalso
      refine hfail "country not found" StatusNotFound (by decide) ?_
      rw [← hok]; simp [countryHandler, hname, hget, hup]
    | cons first rest =>
      cases hcap : (selectCandidate (Values.Get r.query "name") first rest).Capital with
      | nil =>
        rw [countryHandler_miss_panic cache r env first rest hname hmiss hup hcap] at hok
        exact Outcome.noConfusion hok
      | cons capital caps => exact ⟨first, rest, capital, caps, rfl, hcap⟩

/-- On a miss, the outcome, the trace and the value written under the query
name (if any) are fixed by the request and the outside world alone. -/
theorem countryHandler_miss_shape (r : Request) (env : World)
    (hname : Values.Get r.query "name" ≠ "") :
    ∃ (out : Outcome) (tr : List Event) (upd : Option Value),
      ∀ cache : MemoryCache, (cache.Get (Values.Get r.query "name")).2 = false →
        countryHandler cache r env =
          { cache := match upd with
              | none => cache
              | some v => cache.Set (Values.Get r.query "name") v
            outcome := out
            trace := tr } := by
  cases hup : env.upstream with
  | newRequestErr msg =>
    refine ⟨.responded (httpError msg StatusInternalServerError),
      [.cacheGet (Values.Get r.query "name")], none, fun cache hmiss => ?_⟩
    have hget := Get_fst_of_absent cache _ hmiss
    simp [countryHandler, hname, hget, hup]
  | doErr msg =>
    refine ⟨.responded (httpError msg StatusInternalServerError),
      [.cacheGet (Values.Get r.query "name"),
       .upstreamDo (upstreamURL (Values.Get r.query "name"))], none, fun cache hmiss => ?_⟩
    have hget := Get_fst_of_absent cache _ hmiss
    simp [countryHandler, hname, hget, hup]
  | decodeErr msg =>
    refine ⟨.responded (httpError msg StatusInternalServerError),
      [.cacheGet (Values.Get r.query "name"),
       .upstreamDo (upstreamURL (Values.Get r.query "name"))], none, fun cache hmiss => ?_⟩
    have hget := Get_fst_of_absent cache _ hmiss
    simp [countryHandler, hname, hget, hup]
  | decoded apiResp =>
    cases apiResp with
    | nil =>
      refine ⟨.responded (httpError "country not found" StatusNotFound),
        [.cacheGet (Values.Get r.query "name"),
         .upstreamDo (upstreamURL (Values.Get r.query "name"))], none, fun cache hmiss => ?_⟩
      have hget := Get_fst_of_absent cache _ hmiss
      simp [countryHandler, hname, hget, hup]
    | cons first rest =>
      cases hcap : (selectCandidate (Values.Get r.query "name") first rest).Capital with
      | nil =>
        refine ⟨.panicked "runtime error: index out of range [0] with length 0",
          [.cacheGet (Values.Get r.query "name"),
           .upstreamDo (upstreamURL (Values.Get r.query "name"))], none, fun cache hmiss => ?_⟩
        exact countryHandler_miss_panic cache r env first rest hname hmiss hup hcap
      | cons capital caps =>
        refine ⟨.responded (writeJSON (.country
            { Name := (selectCandidate (Values.Get r.query "name") first rest).Name.Common
              Capital := capital
              Currency := extractCurrency
                (selectCandidate (Values.Get r.query "name") first rest).Currencies env.pick
              Population :=
                (selectCandidate (Values.Get r.query "name") first rest).Population })),
          [.cacheGet (Values.Get r.query "name"),
           .upstreamDo (upstreamURL (Values.Get r.query "name")),
           .cacheSet (Values.Get r.query "name") (.country
            { Name := (selectCandidate (Values.Get r.query "name") first rest).Name.Common
              Capital := capital
              Currency := extractCurrency
                (selectCandidate (Values.Get r.query "name") first rest).Currencies env.pick
              Population :=
                (selectCandidate (Values.Get r.query "name") first rest).Population })],
          some (.country
            { Name := (selectCandidate (Values.Get r.query "name") first rest).Name.Common
              Capital := capital
              Currency := extractCurrency
                (selectCandidate (Values.Get r.query "name") first rest).Currencies env.pick
              Population :=
                (selectCandidate (Values.Get r.query "name") first rest).Population }),
          fun cache hmiss => ?_⟩
        exact countryHandler_miss_success cache r env first rest capital caps hname hmiss hup
          hcap

/-- On a miss the outbound calls are: none when the request cannot be built,
else the one call on `upstreamURL`. -/
theorem countryHandler_miss_calls (cache : MemoryCache) (r : Request) (env : World)
    (hname : Values.Get r.query "name" ≠ "")
    (hmiss : (cache.Get (Values.Get r.query "name")).2 = false) :
    upstreamCalls (countryHandler cache r env).trace =
      match env.upstream with
      | .newRequestErr _ => []
      | _ => [.upstreamDo (upstreamURL (Values.Get r.query "name"))] := by
  have hget := Get_fst_of_absent cache _ hmiss
  cases hup : env.upstream with
  | newRequestErr msg =>
    simp [countryHandler, hname, hget, hup, upstreamCalls, Event.isUpstream]
  | doErr msg =>
    simp [countryHandler, hname, hget, hup, upstreamCalls, Event.isUpstream]
  | decodeErr msg =>
    simp [countryHandler, hname, hget, hup, upstreamCalls, Event.isUpstream]
  | decoded apiResp =>
    cases apiResp with
    | nil => simp [countryHandler, hname, hget, hup, upstreamCalls, Event.isUpstream]
    | cons first rest =>
      cases hcap : (selectCandidate (Values.Get r.query "name") first rest).Capital with
      | nil =>
        rw [countryHandler_miss_panic cache r env first rest hname hmiss hup hcap]
        simp [upstreamCalls, Event.isUpstream]
      | cons capital caps =>
        rw [countryHandler_miss_success cache r env first rest capital caps hname hmiss hup
          hcap]
        simp [upstreamCalls, Event.isUpstream]

/-! ## Claims about the cache-miss path -/

/-- C11: for every selected candidate from which a record is produced, if its
`Currencies` mapping is empty the record's `Currency` is the empty string and
the request succeeds all the same; if the mapping is non-empty, the record's
`Currency` is the `Symbol` of some entry of the mapping, and with exactly one
entry it is that entry's `Symbol`. -/
theorem currency_extraction (cache : MemoryCache) (r : Request) (env : World)
    (first : restCountry) (rest : List restCountry) (capital : String) (caps : List String)
    (hname : Values.Get r.query "name" ≠ "")
    (hmiss : (cache.Get (Values.Get r.query "name")).2 = false)
    (hup : env.upstream = .decoded (first :: rest))
    (hcap : (selectCandidate (Values.Get r.query "name") first rest).Capital = capital :: caps) :
    ∃ rec : Country,
      (countryHandler cache r env).outcome = .responded (writeJSON (.country rec)) ∧
      (writeJSON (.country rec)).status = 200 ∧
      ((selectCandidate (Values.Get r.query "name") first rest).Currencies = [] →
        rec.Currency = "") ∧
      ((selectCandidate (Values.Get r.query "name") first rest).Currencies ≠ [] →
        ∃ e ∈ (selectCandidate (Values.Get r.query "name") first rest).Currencies,
          rec.Currency = e.2.Symbol) ∧
      (∀ e : String × restCurrency,
        (selectCandidate (Values.Get r.query "name") first rest).Currencies = [e] →
          rec.Currency = e.2.Symbol) := by
  rw [countryHandler_miss_success cache r env first rest capital caps hname hmiss hup hcap]
  refine ⟨_, rfl, rfl, ?_, ?_, ?_⟩
  · intro hcur
    show extractCurrency _ env.pick = ""
    rw [hcur]
    exact extractCurrency_nil env.pick
  · intro hcur
    exact extractCurrency_mem _ env.pick hcur
  · intro e hcur
    show extractCurrency _ env.pick = e.2.Symbol
    rw [hcur]
    exact extractCurrency_single e env.pick

/-- C11 at a candidate with two currencies, the iteration starting at the second. -/
theorem currency_extraction_witness :
    Values.Get (Request.mk [("name", "Panama")]).query "name" ≠ "" ∧
    (NewMemoryCache.Get (Values.Get (Request.mk [("name", "Panama")]).query "name")).2 = false ∧
    (selectCandidate (Values.Get (Request.mk [("name", "Panama")]).query "name")
        ⟨⟨"Panama"⟩, ["Panama City"], 4300000, [("PAB", ⟨"B/."⟩), ("USD", ⟨"$"⟩)]⟩ []).Capital =
      "Panama City" :: [] ∧
    ∃ rec : Country,
      (countryHandler NewMemoryCache ⟨[("name", "Panama")]⟩
          ⟨.decoded [⟨⟨"Panama"⟩, ["Panama City"], 4300000,
            [("PAB", ⟨"B/."⟩), ("USD", ⟨"$"⟩)]⟩], 1⟩).outcome =
        .responded (writeJSON (.country rec)) ∧
      (writeJSON (.country rec)).status = 200 ∧
      ((selectCandidate (Values.Get (Request.mk [("name", "Panama")]).query "name")
          ⟨⟨"Panama"⟩, ["Panama City"], 4300000, [("PAB", ⟨"B/."⟩), ("USD", ⟨"$"⟩)]⟩
          []).Currencies = [] → rec.Currency = "") ∧
      ((selectCandidate (Values.Get (Request.mk [("name", "Panama")]).query "name")
          ⟨⟨"Panama"⟩, ["Panama City"], 4300000, [("PAB", ⟨"B/."⟩), ("USD", ⟨"$"⟩)]⟩
          []).Currencies ≠ [] →
        ∃ e ∈ (selectCandidate (Values.Get (Request.mk [("name", "Panama")]).query "name")
          ⟨⟨"Panama"⟩, ["Panama City"], 4300000, [("PAB", ⟨"B/."⟩), ("USD", ⟨"$"⟩)]⟩
          []).Currencies, rec.Currency = e.2.Symbol) ∧
      (∀ e : String × restCurrency,
        (selectCandidate (Values.Get (Request.mk [("name", "Panama")]).query "name")
          ⟨⟨"Panama"⟩, ["Panama City"], 4300000, [("PAB", ⟨"B/."⟩), ("USD", ⟨"$"⟩)]⟩
          []).Currencies = [e] → rec.Currency = e.2.Symbol) :=
  ⟨by decide, by decide, by decide,
   currency_extraction NewMemoryCache ⟨[("name", "Panama")]⟩
     ⟨.decoded [⟨⟨"Panama"⟩, ["Panama City"], 4300000, [("PAB", ⟨"B/."⟩), ("USD", ⟨"$"⟩)]⟩], 1⟩
     ⟨⟨"Panama"⟩, ["Panama City"], 4300000, [("PAB", ⟨"B/."⟩), ("USD", ⟨"$"⟩)]⟩ []
     "Panama City" [] (by decide) (by decide) rfl (by decide)⟩

/-- C12: for every cache-miss request that succeeds, the produced record (the
one sent and stored) has `Name` equal to the selected candidate's
`Name.Common`, `Population` equal to its `Population`, and `Capital` equal to
the first element of its `Capital` list. -/
theorem fields_copied_from_selected (cache : MemoryCache) (r : Request) (env : World)
    (resp : Response) (first : restCountry) (rest : List restCountry)
    (hname : Values.Get r.query "name" ≠ "")
    (hmiss : (cache.Get (Values.Get r.query "name")).2 = false)
    (hup : env.upstream = .decoded (first :: rest))
    (hok : (countryHandler cache r env).outcome = .responded resp)
    (hstatus : resp.status = StatusOK) :
    ∃ rec : Country,
      resp = writeJSON (.country rec) ∧
      (countryHandler cache r env).cache.Get (Values.Get r.query "name") =
        (.country rec, true) ∧
      rec.Name = (selectCandidate (Values.Get r.query "name") first rest).Name.Common ∧
      rec.Population = (selectCandidate (Values.Get r.query "name") first rest).Population ∧
      (selectCandidate (Values.Get r.query "name") first rest).Capital.head? =
        some rec.Capital := by
  obtain ⟨first2, rest2, capital, caps, hup2, hcap⟩ :=
    countryHandler_miss_ok cache r env resp hname hmiss hok hstatus
  rw [hup] at hup2
  injection hup2 with hlist
  injection hlist with hfirst hrest
  subst hfirst
  subst hrest
  rw [countryHandler_miss_success cache r env first rest capital caps hname hmiss hup
    hcap] at hok ⊢
  injection hok with hok
  subst hok
  refine ⟨_, rfl, MemoryCache.Get_Set_same cache _ _, rfl, rfl, ?_⟩
  rw [hcap]
  rfl

/-- C12 at a query that matches the second candidate exactly. -/
theorem fields_copied_from_selected_witness :
    Values.Get (Request.mk [("name", "India")]).query "name" ≠ "" ∧
    (NewMemoryCache.Get (Values.Get (Request.mk [("name", "India")]).query "name")).2 = false ∧
    (countryHandler NewMemoryCache ⟨[("name", "India")]⟩
        ⟨.decoded [⟨⟨"Bharat"⟩, ["Delhi"], 7, []⟩,
                   ⟨⟨"India"⟩, ["New Delhi", "Delhi"], 1400000000, [("INR", ⟨"₹"⟩)]⟩], 0⟩).outcome =
      .responded (writeJSON (.country ⟨"India", "New Delhi", "₹", 1400000000⟩)) ∧
    ∃ rec : Country,
      writeJSON (.country ⟨"India", "New Delhi", "₹", 1400000000⟩) = writeJSON (.country rec) ∧
      (countryHandler NewMemoryCache ⟨[("name", "India")]⟩
          ⟨.decoded [⟨⟨"Bharat"⟩, ["Delhi"], 7, []⟩,
                     ⟨⟨"India"⟩, ["New Delhi", "Delhi"], 1400000000, [("INR", ⟨"₹"⟩)]⟩],
            0⟩).cache.Get
        (Values.Get (Request.mk [("name", "India")]).query "name") = (.country rec, true) ∧
      rec.Name = (selectCandidate (Values.Get (Request.mk [("name", "India")]).query "name")
          ⟨⟨"Bharat"⟩, ["Delhi"], 7, []⟩
          [⟨⟨"India"⟩, ["New Delhi", "Delhi"], 1400000000, [("INR", ⟨"₹"⟩)]⟩]).Name.Common ∧
      rec.Population =
        (selectCandidate (Values.Get (Request.mk [("name", "India")]).query "name")
          ⟨⟨"Bharat"⟩, ["Delhi"], 7, []⟩
          [⟨⟨"India"⟩, ["New Delhi", "Delhi"], 1400000000, [("INR", ⟨"₹"⟩)]⟩]).Population ∧
      (selectCandidate (Values.Get (Request.mk [("name", "India")]).query "name")
          ⟨⟨"Bharat"⟩, ["Delhi"], 7, []⟩
          [⟨⟨"India"⟩, ["New Delhi", "Delhi"], 1400000000, [("INR", ⟨"₹"⟩)]⟩]).Capital.head? =
        some rec.Capital :=
  ⟨by decide, by decide, by decide,
   fields_copied_from_selected NewMemoryCache ⟨[("name", "India")]⟩
     ⟨.decoded [⟨⟨"Bharat"⟩, ["Delhi"], 7, []⟩,
                ⟨⟨"India"⟩, ["New Delhi", "Delhi"], 1400000000, [("INR", ⟨"₹"⟩)]⟩], 0⟩
     (writeJSON (.country ⟨"India", "New Delhi", "₹", 1400000000⟩))
     ⟨⟨"Bharat"⟩, ["Delhi"], 7, []⟩
     [⟨⟨"India"⟩, ["New Delhi", "Delhi"], 1400000000, [("INR", ⟨"₹"⟩)]⟩]
     (by decide) (by decide) rfl (by decide) rfl⟩

/-- C13: for every successful cache-miss request with query name `q`, the
store after the request differs from the store before only at key `q` (the
exact string): `q` now holds the record, and every other key, the selected
candidate's `Name.Common` included when it differs from `q`, has the same
presence and value as before. -/
theorem store_changes_only_at_query (cache : MemoryCache) (r : Request) (env : World)
    (resp : Response)
    (hname : Values.Get r.query "name" ≠ "")
    (hmiss : (cache.Get (Values.Get r.query "name")).2 = false)
    (hok : (countryHandler cache r env).outcome = .responded resp)
    (hstatus : resp.status = StatusOK) :
    (∃ rec : Country, (countryHandler cache r env).cache.Get (Values.Get r.query "name") =
        (.country rec, true)) ∧
    (∀ k : String, k ≠ Values.Get r.query "name" →
      (countryHandler cache r env).cache.Get k = cache.Get k) ∧
    (∀ (first : restCountry) (rest : List restCountry),
      env.upstream = .decoded (first :: rest) →
      (selectCandidate (Values.Get r.query "name") first rest).Name.Common ≠
        Values.Get r.query "name" →
      (countryHandler cache r env).cache.Get
          (selectCandidate (Values.Get r.query "name") first rest).Name.Common =
        cache.Get (selectCandidate (Values.Get r.query "name") first rest).Name.Common) := by
  have hothers : ∀ k : String, k ≠ Values.Get r.query "name" →
      (countryHandler cache r env).cache.Get k = cache.Get k := by
    intro k hk
    rcases countryHandler_cache_cases cache r env with hc | ⟨_, rec, hc⟩
    · rw [hc]
    · rw [hc]
      exact MemoryCache.Get_Set_other cache _ k _ (fun h => hk h.symm)
  refine ⟨?_, hothers, fun first rest _ hne => hothers _ hne⟩
  obtain ⟨first, rest, capital, caps, hup, hcap⟩ :=
    countryHandler_miss_ok cache r env resp hname hmiss hok hstatus
  rw [countryHandler_miss_success cache r env first rest capital caps hname hmiss hup hcap]
  exact ⟨_, MemoryCache.Get_Set_same cache _ _⟩

/-- C13 at the lower-case query `india` answered by the candidate India, on a
store that already holds Peru: the record goes under `india`, and `India`,
`INDIA` and `Peru` read as before. -/
theorem store_changes_only_at_query_witness :
    Values.Get (Request.mk [("name", "india")]).query "name" ≠ "" ∧
    ((NewMemoryCache.Set "Peru" (.str "x")).Get
      (Values.Get (Request.mk [("name", "india")]).query "name")).2 = false ∧
    (countryHandler (NewMemoryCache.Set "Peru" (.str "x")) ⟨[("name", "india")]⟩
        ⟨.decoded [⟨⟨"India"⟩, ["New Delhi"], 1400000000, [("INR", ⟨"₹"⟩)]⟩], 0⟩).outcome =
      .responded (writeJSON (.country ⟨"India", "New Delhi", "₹", 1400000000⟩)) ∧
    (countryHandler (NewMemoryCache.Set "Peru" (.str "x")) ⟨[("name", "india")]⟩
        ⟨.decoded [⟨⟨"India"⟩, ["New Delhi"], 1400000000, [("INR", ⟨"₹"⟩)]⟩], 0⟩).cache.Get
      "India" = (Value.nil, false) ∧
    (countryHandler (NewMemoryCache.Set "Peru" (.str "x")) ⟨[("name", "india")]⟩
        ⟨.decoded [⟨⟨"India"⟩, ["New Delhi"], 1400000000, [("INR", ⟨"₹"⟩)]⟩], 0⟩).cache.Get
      "Peru" = (.str "x", true) ∧
    ((∃ rec : Country,
        (countryHandler (NewMemoryCache.Set "Peru" (.str "x")) ⟨[("name", "india")]⟩
          ⟨.decoded [⟨⟨"India"⟩, ["New Delhi"], 1400000000, [("INR", ⟨"₹"⟩)]⟩], 0⟩).cache.Get
        (Values.Get (Request.mk [("name", "india")]).query "name") = (.country rec, true)) ∧
      (∀ k : String, k ≠ Values.Get (Request.mk [("name", "india")]).query "name" →
        (countryHandler (NewMemoryCache.Set "Peru" (.str "x")) ⟨[("name", "india")]⟩
          ⟨.decoded [⟨⟨"India"⟩, ["New Delhi"], 1400000000, [("INR", ⟨"₹"⟩)]⟩], 0⟩).cache.Get k =
          (NewMemoryCache.Set "Peru" (.str "x")).Get k) ∧
      (∀ (first : restCountry) (rest : List restCountry),
        (World.mk (.decoded [⟨⟨"India"⟩, ["New Delhi"], 1400000000, [("INR", ⟨"₹"⟩)]⟩])
          0).upstream = .decoded (first :: rest) →
        (selectCandidate (Values.Get (Request.mk [("name", "india")]).query "name") first
          rest).Name.Common ≠ Values.Get (Request.mk [("name", "india")]).query "name" →
        (countryHandler (NewMemoryCache.Set "Peru" (.str "x")) ⟨[("name", "india")]⟩
          ⟨.decoded [⟨⟨"India"⟩, ["New Delhi"], 1400000000, [("INR", ⟨"₹"⟩)]⟩], 0⟩).cache.Get
            (selectCandidate (Values.Get (Request.mk [("name", "india")]).query "name") first
              rest).Name.Common =
          (NewMemoryCache.Set "Peru" (.str "x")).Get
            (selectCandidate (Values.Get (Request.mk [("name", "india")]).query "name") first
              rest).Name.Common)) :=
  ⟨by decide, by decide, by decide, by decide, by decide,
   store_changes_only_at_query (NewMemoryCache.Set "Peru" (.str "x")) ⟨[("name", "india")]⟩
     ⟨.decoded [⟨⟨"India"⟩, ["New Delhi"], 1400000000, [("INR", ⟨"₹"⟩)]⟩], 0⟩
     (writeJSON (.country ⟨"India", "New Delhi", "₹", 1400000000⟩))
     (by decide) (by decide) (by decide) rfl⟩

/-- C14: for every cache-miss request in which building the outbound request,
performing it, or decoding its payload fails with message `msg`, the handler
responds with status 500 and the plain-text body `msg` (written as one line),
makes at most the one outbound call (none when the request could not be built,
never a second one), and leaves the store unchanged. -/
theorem upstream_failure_terminal (cache : MemoryCache) (r : Request) (env : World)
    (msg : String)
    (hname : Values.Get r.query "name" ≠ "")
    (hmiss : (cache.Get (Values.Get r.query "name")).2 = false)
    (hfail : env.upstream = .newRequestErr msg ∨ env.upstream = .doErr msg ∨
      env.upstream = .decodeErr msg) :
    ∃ resp : Response,
      (countryHandler cache r env).outcome = .responded resp ∧
      resp.status = 500 ∧
      resp.contentType = "text/plain; charset=utf-8" ∧
      resp.body = msg ++ "\n" ∧
      (upstreamCalls (countryHandler cache r env).trace).length ≤ 1 ∧
      (env.upstream = .newRequestErr msg →
        upstreamCalls (countryHandler cache r env).trace = []) ∧
      (countryHandler cache r env).cache = cache := by
  have hget := Get_fst_of_absent cache _ hmiss
  rcases hfail with hup | hup | hup
  · have hrun : countryHandler cache r env =
        { cache := cache
          outcome := .responded (httpError msg StatusInternalServerError)
          trace := [.cacheGet (Values.Get r.query "name")] } := by
      simp [countryHandler, hname, hget, hup]
    rw [hrun]
    exact ⟨_, rfl, rfl, rfl, rfl, by simp [upstreamCalls, Event.isUpstream],
      fun _ => by simp [upstreamCalls, Event.isUpstream], rfl⟩
  · have hrun : countryHandler cache r env =
        { cache := cache
          outcome := .responded (httpError msg StatusInternalServerError)
          trace := [.cacheGet (Values.Get r.query "name"),
                    .upstreamDo (upstreamURL (Values.Get r.query "name"))] } := by
      simp [countryHandler, hname, hget, hup]
    rw [hrun]
    refine ⟨_, rfl, rfl, rfl, rfl, by simp [upstreamCalls, Event.isUpstream], ?_, rfl⟩
    intro h
    rw [hup] at h
    exact Upstream.noConfusion h
  · have hrun : countryHandler cache r env =
        { cache := cache
          outcome := .responded (httpError msg StatusInternalServerError)
          trace := [.cacheGet (Values.Get r.query "name"),
                    .upstreamDo (upstreamURL (Values.Get r.query "name"))] } := by
      simp [countryHandler, hname, hget, hup]
    rw [hrun]
    refine ⟨_, rfl, rfl, rfl, rfl, by simp [upstreamCalls, Event.isUpstream], ?_, rfl⟩
    intro h
    rw [hup] at h
    exact Upstream.noConfusion h

/-- C14 at a request whose outbound call times out. -/
theorem upstream_failure_terminal_witness :
    Values.Get (Request.mk [("name", "India")]).query "name" ≠ "" ∧
    (NewMemoryCache.Get (Values.Get (Request.mk [("name", "India")]).query "name")).2 = false ∧
    ∃ resp : Response,
      (countryHandler NewMemoryCache ⟨[("name", "India")]⟩
          ⟨.doErr "context deadline exceeded", 0⟩).outcome = .responded resp ∧
      resp.status = 500 ∧
      resp.contentType = "text/plain; charset=utf-8" ∧
      resp.body = "context deadline exceeded" ++ "\n" ∧
      (upstreamCalls (countryHandler NewMemoryCache ⟨[("name", "India")]⟩
          ⟨.doErr "context deadline exceeded", 0⟩).trace).length ≤ 1 ∧
      ((World.mk (.doErr "context deadline exceeded") 0).upstream =
          .newRequestErr "context deadline exceeded" →
        upstreamCalls (countryHandler NewMemoryCache ⟨[("name", "India")]⟩
          ⟨.doErr "context deadline exceeded", 0⟩).trace = []) ∧
      (countryHandler NewMemoryCache ⟨[("name", "India")]⟩
          ⟨.doErr "context deadline exceeded", 0⟩).cache = NewMemoryCache :=
  ⟨by decide, by decide,
   upstream_failure_terminal NewMemoryCache ⟨[("name", "India")]⟩
     ⟨.doErr "context deadline exceeded", 0⟩ "context deadline exceeded"
     (by decide) (by decide) (Or.inr (Or.inl rfl))⟩

/-! ## Lemmas on the requested URL -/

theorem charsBytes_append (a b : List Char) :
    charsBytes (a ++ b) = charsBytes a ++ charsBytes b := by
  simp [charsBytes]

theorem charsBytes_cons (c : Char) (rest : List Char) :
    charsBytes (c :: rest) = charsBytes [c] ++ charsBytes rest :=
  charsBytes_append [c] rest

theorem cutAt_of_byte_absent (sep : Char) (sb : Nat) (hsep : charsBytes [sep] = [sb])
    (l : List Char) (h : sb ∉ charsBytes l) : cutAt sep l = (l, none) := by
  induction l with
  | nil => rfl
  | cons c rest ih =>
    rw [charsBytes_cons] at h
    have hc : c ≠ sep := by
      intro heq
      subst heq
      rw [hsep] at h
      simp at h
    have hrest : sb ∉ charsBytes rest := fun hm => h (List.mem_append_right _ hm)
    simp [cutAt, hc, ih hrest]

theorem unescapeFuel_of_no_percent (fuel : Nat) (l : List Nat) (h : 37 ∉ l)
    (hlen : l.length ≤ fuel) : unescapeFuel fuel l = some l := by
  induction l generalizing fuel with
  | nil => cases fuel <;> rfl
  | cons c rest ih =>
    cases fuel with
    | zero => simp at hlen
    | succ fuel =>
      have hc : c ≠ 37 := fun heq => h (by simp [heq])
      have hrest : 37 ∉ rest := fun hm => h (List.mem_cons_of_mem _ hm)
      have hl : rest.length ≤ fuel := by simpa using hlen
      simp [unescapeFuel, hc, ih fuel hrest hl]

theorem unescape_of_no_percent (l : List Nat) (h : 37 ∉ l) : unescape l = some l :=
  unescapeFuel_of_no_percent l.length l h (Nat.le_refl _)

theorem pathSafeByte_not_ctl (b : Nat) (h : pathSafeByte b = true) : isCTLByte b = false := by
  simp [pathSafeByte] at h
  simp [h.1]

theorem pathSafeByte_ne (b : Nat) (h : pathSafeByte b = true) :
    b ≠ 63 ∧ b ≠ 35 ∧ b ≠ 37 := by
  simp [pathSafeByte] at h
  exact ⟨h.2.1, h.2.2.1, h.2.2.2.1⟩

theorem escapePathByte_of_valid (b : Nat) (hs : pathSafeByte b = true)
    (hv : validEncodedByte b = true) :
    escapePathByte b = String.singleton (Char.ofNat b) := by
  have hne : shouldEscapeInPath b = false := by
    simp [pathSafeByte] at hs
    simp [validEncodedByte] at hv
    rcases hv with hv | hv
    · rcases hv with hv | hv | hv | hv | hv | hv | hv | hv | hv | hv | hv | hv | hv | hv | hv | hv <;>
        first
        | (subst hv; decide)
        | (subst hv; simp at hs)
    · exact hv
  simp [escapePathByte, hne]

theorem join_singletons (l : List Nat) :
    String.join (l.map (fun b => String.singleton (Char.ofNat b))) =
      String.mk (l.map Char.ofNat) := by
  apply String.ext
  rw [String.data_join]
  induction l with
  | nil => rfl
  | cons b rest ih =>
    simp only [List.map_cons, List.flatten_cons, ih]
    rfl

theorem escapePath_append (a b : List Nat) :
    escapePath (a ++ b) = escapePath a ++ escapePath b := by
  apply String.ext
  simp [escapePath, String.data_join, String.data_append]

theorem escapePath_of_valid (l : List Nat) (hs : ∀ b ∈ l, pathSafeByte b = true)
    (hv : validEncoded l = true) :
    escapePath l = String.mk (l.map Char.ofNat) := by
  rw [← join_singletons]
  unfold escapePath
  congr 1
  apply List.map_congr_left
  intro b hb
  have hvb : validEncodedByte b = true := by
    unfold validEncoded at hv
    exact List.all_eq_true.mp hv b hb
  exact escapePathByte_of_valid b (hs b hb) hvb

theorem escapePathByte_of_plain (b : Nat) (h : plainByte b = true) :
    escapePathByte b = escapeByte b := by
  have hne : shouldEscapeInPath b = shouldEscape b := by
    simp [plainByte] at h
    simp [shouldEscapeInPath, h.2.1, h.2.2.1, h.2.2.2.1]
  simp [escapePathByte, escapeByte, hne]

theorem pathSafeByte_of_plain (b : Nat) (h : plainByte b = true) : pathSafeByte b = true := by
  simp [plainByte] at h
  simp [pathSafeByte, h]

theorem escapePath_of_plain (s : String) (h : ∀ b ∈ utf8Bytes s, plainByte b = true) :
    escapePath (utf8Bytes s) = pathEscape s := by
  unfold escapePath pathEscape utf8Bytes charsBytes
  rw [List.map_map]
  congr 1
  apply List.map_congr_left
  intro b hb
  have hb2 : b.toNat ∈ utf8Bytes s := by
    unfold utf8Bytes charsBytes
    exact List.mem_map_of_mem _ hb
  exact escapePathByte_of_plain b.toNat (h _ hb2)

/-- The URL requested for a name whose bytes all stay in the path: the prefix
followed by the name escaped in path mode. -/
theorem requestedURL_of_pathSafe (name : String)
    (h : ∀ b ∈ utf8Bytes name, pathSafeByte b = true) :
    requestedURL name =
      some ("https://restcountries.com/v3.1/name/" ++ escapePath (utf8Bytes name)) := by
  have hno : ∀ k : Nat, pathSafeByte k = false → k ∉ charsBytes name.data := by
    intro k hk hm
    have := h k hm
    rw [hk] at this
    exact Bool.noConfusion this
  have hcut1 : cutAt '#' name.data = (name.data, none) :=
    cutAt_of_byte_absent '#' 35 (by decide) name.data (hno 35 (by decide))
  have hcut2 : cutAt '?' name.data = (name.data, none) :=
    cutAt_of_byte_absent '?' 63 (by decide) name.data (hno 63 (by decide))
  have hctl : (charsBytes name.data).any isCTLByte = false := by
    rw [List.any_eq_false]
    intro b hb
    rw [pathSafeByte_not_ctl b (h b hb)]
    simp
  have hraw : charsBytes ("/v3.1/name/".data ++ name.data) =
      [47, 118, 51, 46, 49, 47, 110, 97, 109, 101, 47] ++ utf8Bytes name := by
    rw [charsBytes_append]
    rfl
  have hun : unescape ([47, 118, 51, 46, 49, 47, 110, 97, 109, 101, 47] ++ utf8Bytes name) =
      some ([47, 118, 51, 46, 49, 47, 110, 97, 109, 101, 47] ++ utf8Bytes name) := by
    apply unescape_of_no_percent
    intro hm
    rcases List.mem_append.mp hm with hm | hm
    · exact absurd hm (by decide)
    · exact hno 37 (by decide) hm
  have hfrag : unescape (charsBytes []) = some [] := rfl
  unfold requestedURL
  simp only [hcut1, hcut2, hctl, hraw, hun, Option.getD_none, hfrag]
  have hsafe : ∀ b ∈ [47, 118, 51, 46, 49, 47, 110, 97, 109, 101, 47] ++ utf8Bytes name,
      pathSafeByte b = true := by
    have hP : ∀ b ∈ [47, 118, 51, 46, 49, 47, 110, 97, 109, 101, 47],
        pathSafeByte b = true := by decide
    intro b hb
    rcases List.mem_append.mp hb with hb | hb
    · exact hP b hb
    · exact h b hb
  have hesc : (if validEncoded ([47, 118, 51, 46, 49, 47, 110, 97, 109, 101, 47] ++
        utf8Bytes name) = true then
        String.mk (List.map Char.ofNat
          ([47, 118, 51, 46, 49, 47, 110, 97, 109, 101, 47] ++ utf8Bytes name))
      else escapePath ([47, 118, 51, 46, 49, 47, 110, 97, 109, 101, 47] ++ utf8Bytes name)) =
      "/v3.1/name/" ++ escapePath (utf8Bytes name) := by
    have hpre : escapePath [47, 118, 51, 46, 49, 47, 110, 97, 109, 101, 47] = "/v3.1/name/" := by
      decide
    split
    · rename_i hv
      rw [← escapePath_of_valid _ hsafe hv, escapePath_append, hpre]
    · rw [escapePath_append, hpre]
  rw [hesc]
  have hhost : "https://restcountries.com" ++ "/v3.1/name/" =
      "https://restcountries.com/v3.1/name/" := by decide
  simp only [Bool.false_eq_true, if_false, String.append_empty, ← String.append_assoc, hhost]

/-- The URL requested for a plain name: the prefix followed by the URL-encoded name. -/
theorem requestedURL_of_plain (name : String)
    (h : ∀ b ∈ utf8Bytes name, plainByte b = true) :
    requestedURL name = some (specURL name) := by
  rw [requestedURL_of_pathSafe name (fun b hb => pathSafeByte_of_plain b (h b hb)),
    escapePath_of_plain name h]
  rfl

/-- C15, the claim refuted: on an empty store the request for the name
`India?fullText=true` makes one outbound call, built from the URL string that
ends in the name as it came; the URL requested keeps the `?` as the start of a
query, where the URL-encoded name would read `India%3FfullText=true`. -/
theorem outbound_url_not_encoded :
    Values.Get (Request.mk [("name", "India?fullText=true")]).query "name" ≠ "" ∧
    (NewMemoryCache.Get
      (Values.Get (Request.mk [("name", "India?fullText=true")]).query "name")).2 = false ∧
    upstreamCalls (countryHandler NewMemoryCache ⟨[("name", "India?fullText=true")]⟩
        ⟨.decoded [], 0⟩).trace =
      [.upstreamDo "https://restcountries.com/v3.1/name/India?fullText=true"] ∧
    requestedURL "India?fullText=true" =
      some "https://restcountries.com/v3.1/name/India?fullText=true" ∧
    specURL "India?fullText=true" =
      "https://restcountries.com/v3.1/name/India%3FfullText=true" ∧
    requestedURL "India?fullText=true" ≠ some (specURL "India?fullText=true") := by
  decide

/-- C15 as amended: for every non-empty query name that misses the store, the
handler makes at most one outbound call, built from the URL string
`https://restcountries.com/v3.1/name/` followed by the query name as it came
(exactly one when the outbound request can be built, none otherwise). The
handler does not encode the name; `net/url` re-escapes the string: for a name
with no control byte and none of `/ ; , ? # % ! ' ( ) * [ ]` the URL requested
is the prefix followed by the URL-encoded name, and for a name that may also
hold `/ ; ,` it is the prefix followed by the name escaped byte by byte with
`/ ; ,` left as they are. -/
theorem outbound_url_escaped_as_path (cache : MemoryCache) (r : Request)
    (env : World)
    (hname : Values.Get r.query "name" ≠ "")
    (hmiss : (cache.Get (Values.Get r.query "name")).2 = false) :
    (∀ e ∈ upstreamCalls (countryHandler cache r env).trace,
      e = .upstreamDo ("https://restcountries.com/v3.1/name/" ++ Values.Get r.query "name")) ∧
    ((∀ msg : String, env.upstream ≠ .newRequestErr msg) →
      upstreamCalls (countryHandler cache r env).trace =
        [.upstreamDo ("https://restcountries.com/v3.1/name/" ++ Values.Get r.query "name")]) ∧
    (∀ msg : String, env.upstream = .newRequestErr msg →
      upstreamCalls (countryHandler cache r env).trace = []) ∧
    ((∀ b ∈ utf8Bytes (Values.Get r.query "name"), plainByte b = true) →
      requestedURL (Values.Get r.query "name") =
        some (specURL (Values.Get r.query "name"))) ∧
    ((∀ b ∈ utf8Bytes (Values.Get r.query "name"), pathSafeByte b = true) →
      requestedURL (Values.Get r.query "name") =
        some ("https://restcountries.com/v3.1/name/" ++
          escapePath (utf8Bytes (Values.Get r.query "name")))) := by
  have hcalls := countryHandler_miss_calls cache r env hname hmiss
  rw [hcalls]
  refine ⟨?_, ?_, ?_, requestedURL_of_plain _, requestedURL_of_pathSafe _⟩
  · intro e he
    cases hup : env.upstream with
    | newRequestErr msg => rw [hup] at he; cases he
    | doErr msg => rw [hup] at he; exact List.mem_singleton.mp he
    | decodeErr msg => rw [hup] at he; exact List.mem_singleton.mp he
    | decoded apiResp => rw [hup] at he; exact List.mem_singleton.mp he
  · intro h
    cases hup : env.upstream with
    | newRequestErr msg => exact absurd hup (h msg)
    | doErr msg => rfl
    | decodeErr msg => rfl
    | decoded apiResp => rfl
  · intro msg hup
    rw [hup]

/-- C15 as amended, at the name `Costa Rica`: one call, and the URL requested
ends in `Costa%20Rica`. -/
theorem outbound_url_escaped_as_path_witness :
    Values.Get (Request.mk [("name", "Costa Rica")]).query "name" ≠ "" ∧
    (NewMemoryCache.Get (Values.Get (Request.mk [("name", "Costa Rica")]).query "name")).2 =
      false ∧
    (∀ b ∈ utf8Bytes (Values.Get (Request.mk [("name", "Costa Rica")]).query "name"),
      plainByte b = true) ∧
    specURL "Costa Rica" = "https://restcountries.com/v3.1/name/Costa%20Rica" ∧
    ((∀ e ∈ upstreamCalls (countryHandler NewMemoryCache ⟨[("name", "Costa Rica")]⟩
        ⟨.decoded [], 0⟩).trace,
      e = .upstreamDo ("https://restcountries.com/v3.1/name/" ++
        Values.Get (Request.mk [("name", "Costa Rica")]).query "name")) ∧
    ((∀ msg : String, (World.mk (.decoded []) 0).upstream ≠ .newRequestErr msg) →
      upstreamCalls (countryHandler NewMemoryCache ⟨[("name", "Costa Rica")]⟩
        ⟨.decoded [], 0⟩).trace =
        [.upstreamDo ("https://restcountries.com/v3.1/name/" ++
          Values.Get (Request.mk [("name", "Costa Rica")]).query "name")]) ∧
    (∀ msg : String, (World.mk (.decoded []) 0).upstream = .newRequestErr msg →
      upstreamCalls (countryHandler NewMemoryCache ⟨[("name", "Costa Rica")]⟩
        ⟨.decoded [], 0⟩).trace = []) ∧
    ((∀ b ∈ utf8Bytes (Values.Get (Request.mk [("name", "Costa Rica")]).query "name"),
        plainByte b = true) →
      requestedURL (Values.Get (Request.mk [("name", "Costa Rica")]).query "name") =
        some (specURL (Values.Get (Request.mk [("name", "Costa Rica")]).query "name"))) ∧
    ((∀ b ∈ utf8Bytes (Values.Get (Request.mk [("name", "Costa Rica")]).query "name"),
        pathSafeByte b = true) →
      requestedURL (Values.Get (Request.mk [("name", "Costa Rica")]).query "name") =
        some ("https://restcountries.com/v3.1/name/" ++
          escapePath (utf8Bytes
            (Values.Get (Request.mk [("name", "Costa Rica")]).query "name"))))) :=
  ⟨by decide, by decide, by decide, by decide,
   outbound_url_escaped_as_path NewMemoryCache ⟨[("name", "Costa Rica")]⟩
     ⟨.decoded [], 0⟩ (by decide) (by decide)⟩

/-- C17, the claim refuted: on an empty store the request for India, answered
upstream by the candidate India with population -1, succeeds, and the record
sent and stored has `Population = -1`. -/
theorem negative_population_stored :
    (countryHandler NewMemoryCache ⟨[("name", "India")]⟩
        ⟨.decoded [⟨⟨"India"⟩, ["New Delhi"], -1, []⟩], 0⟩).outcome =
      .responded (writeJSON (.country ⟨"India", "New Delhi", "", -1⟩)) ∧
    (countryHandler NewMemoryCache ⟨[("name", "India")]⟩
        ⟨.decoded [⟨⟨"India"⟩, ["New Delhi"], -1, []⟩], 0⟩).cache.Get "India" =
      (.country ⟨"India", "New Delhi", "", -1⟩, true) ∧
    ¬ (0 ≤ (Country.mk "India" "New Delhi" "" (-1)).Population) := by
  decide

/-- C17 as amended: every record the handler produces on a cache miss (the one
it stores and returns) has `Population` equal to the selected candidate's
`Population`, copied without a sign check: it is `≥ 0` exactly when the
selected candidate's is, in particular for every upstream candidate list all
of whose candidates have `Population ≥ 0`. -/
theorem population_copied_unchecked (cache : MemoryCache) (r : Request) (env : World)
    (resp : Response) (first : restCountry) (rest : List restCountry)
    (hname : Values.Get r.query "name" ≠ "")
    (hmiss : (cache.Get (Values.Get r.query "name")).2 = false)
    (hup : env.upstream = .decoded (first :: rest))
    (hok : (countryHandler cache r env).outcome = .responded resp)
    (hstatus : resp.status = StatusOK) :
    ∃ rec : Country,
      resp = writeJSON (.country rec) ∧
      (countryHandler cache r env).cache.Get (Values.Get r.query "name") =
        (.country rec, true) ∧
      rec.Population = (selectCandidate (Values.Get r.query "name") first rest).Population ∧
      (0 ≤ rec.Population ↔
        0 ≤ (selectCandidate (Values.Get r.query "name") first rest).Population) ∧
      ((∀ c ∈ first :: rest, 0 ≤ c.Population) → 0 ≤ rec.Population) := by
  obtain ⟨first2, rest2, capital, caps, hup2, hcap⟩ :=
    countryHandler_miss_ok cache r env resp hname hmiss hok hstatus
  rw [hup] at hup2
  injection hup2 with hlist
  injection hlist with hfirst hrest
  subst hfirst
  subst hrest
  rw [countryHandler_miss_success cache r env first rest capital caps hname hmiss hup
    hcap] at hok ⊢
  injection hok with hok
  subst hok
  exact ⟨_, rfl, MemoryCache.Get_Set_same cache _ _, rfl, Iff.rfl,
    fun hpop => hpop _ (selectCandidate_mem (Values.Get r.query "name") first rest)⟩

/-- C17 as amended, at scenario B. -/
theorem population_copied_unchecked_witness :
    Values.Get (Request.mk [("name", "India")]).query "name" ≠ "" ∧
    (NewMemoryCache.Get (Values.Get (Request.mk [("name", "India")]).query "name")).2 = false ∧
    (countryHandler NewMemoryCache ⟨[("name", "India")]⟩
        ⟨.decoded [⟨⟨"India"⟩, ["New Delhi"], 1400000000, [("INR", ⟨"₹"⟩)]⟩], 0⟩).outcome =
      .responded (writeJSON (.country ⟨"India", "New Delhi", "₹", 1400000000⟩)) ∧
    ∃ rec : Country,
      writeJSON (.country ⟨"India", "New Delhi", "₹", 1400000000⟩) = writeJSON (.country rec) ∧
      (countryHandler NewMemoryCache ⟨[("name", "India")]⟩
          ⟨.decoded [⟨⟨"India"⟩, ["New Delhi"], 1400000000, [("INR", ⟨"₹"⟩)]⟩], 0⟩).cache.Get
        (Values.Get (Request.mk [("name", "India")]).query "name") = (.country rec, true) ∧
      rec.Population =
        (selectCandidate (Values.Get (Request.mk [("name", "India")]).query "name")
          ⟨⟨"India"⟩, ["New Delhi"], 1400000000, [("INR", ⟨"₹"⟩)]⟩ []).Population ∧
      (0 ≤ rec.Population ↔
        0 ≤ (selectCandidate (Values.Get (Request.mk [("name", "India")]).query "name")
          ⟨⟨"India"⟩, ["New Delhi"], 1400000000, [("INR", ⟨"₹"⟩)]⟩ []).Population) ∧
      ((∀ c ∈ [restCountry.mk ⟨"India"⟩ ["New Delhi"] 1400000000 [("INR", ⟨"₹"⟩)]],
          0 ≤ c.Population) → 0 ≤ rec.Population) :=
  ⟨by decide, by decide, by decide,
   population_copied_unchecked NewMemoryCache ⟨[("name", "India")]⟩
     ⟨.decoded [⟨⟨"India"⟩, ["New Delhi"], 1400000000, [("INR", ⟨"₹"⟩)]⟩], 0⟩
     (writeJSON (.country ⟨"India", "New Delhi", "₹", 1400000000⟩))
     ⟨⟨"India"⟩, ["New Delhi"], 1400000000, [("INR", ⟨"₹"⟩)]⟩ []
     (by decide) (by decide) rfl (by decide) rfl⟩

/-- C18: for every non-empty query name `q`, every outside world (upstream
outcome and currency choice) and every two stores in both of which `q` is
absent, the handler run on the one and on the other ends the same way (same
status, headers and body, or the same fault), makes the same calls, and
applies the same update to key `q`: either it leaves both stores as they are,
or it sets `q` to the same value in both. -/
theorem miss_independent_of_other_entries (s1 s2 : MemoryCache) (r : Request)
    (env : World)
    (hname : Values.Get r.query "name" ≠ "")
    (h1 : (s1.Get (Values.Get r.query "name")).2 = false)
    (h2 : (s2.Get (Values.Get r.query "name")).2 = false) :
    (countryHandler s1 r env).outcome = (countryHandler s2 r env).outcome ∧
    (countryHandler s1 r env).trace = (countryHandler s2 r env).trace ∧
    (countryHandler s1 r env).cache.Get (Values.Get r.query "name") =
      (countryHandler s2 r env).cache.Get (Values.Get r.query "name") ∧
    (((countryHandler s1 r env).cache = s1 ∧ (countryHandler s2 r env).cache = s2) ∨
      ∃ v : Value,
        (countryHandler s1 r env).cache = s1.Set (Values.Get r.query "name") v ∧
        (countryHandler s2 r env).cache = s2.Set (Values.Get r.query "name") v) := by
  obtain ⟨out, tr, upd, hshape⟩ := countryHandler_miss_shape r env hname
  rw [hshape s1 h1, hshape s2 h2]
  refine ⟨rfl, rfl, ?_, ?_⟩
  · cases upd with
    | none =>
      show s1.Get _ = s2.Get _
      rw [Get_fst_of_absent s1 _ h1, Get_fst_of_absent s2 _ h2]
    | some v =>
      show (s1.Set _ v).Get _ = (s2.Set _ v).Get _
      rw [MemoryCache.Get_Set_same, MemoryCache.Get_Set_same]
  · cases upd with
    | none => exact Or.inl ⟨rfl, rfl⟩
    | some v => exact Or.inr ⟨v, rfl, rfl⟩

/-- C18 at the query India on an empty store and on a store holding Peru and Chile. -/
theorem miss_independent_of_other_entries_witness :
    Values.Get (Request.mk [("name", "India")]).query "name" ≠ "" ∧
    (NewMemoryCache.Get (Values.Get (Request.mk [("name", "India")]).query "name")).2 = false ∧
    (((NewMemoryCache.Set "Peru" (.str "x")).Set "Chile" (.country ⟨"Chile", "Santiago", "$", 19⟩)).Get
      (Values.Get (Request.mk [("name", "India")]).query "name")).2 = false ∧
    ((countryHandler NewMemoryCache ⟨[("name", "India")]⟩
        ⟨.decoded [⟨⟨"India"⟩, ["New Delhi"], 1400000000, [("INR", ⟨"₹"⟩)]⟩], 0⟩).outcome =
      (countryHandler
        ((NewMemoryCache.Set "Peru" (.str "x")).Set "Chile" (.country ⟨"Chile", "Santiago", "$", 19⟩))
        ⟨[("name", "India")]⟩
        ⟨.decoded [⟨⟨"India"⟩, ["New Delhi"], 1400000000, [("INR", ⟨"₹"⟩)]⟩], 0⟩).outcome ∧
    (countryHandler NewMemoryCache ⟨[("name", "India")]⟩
        ⟨.decoded [⟨⟨"India"⟩, ["New Delhi"], 1400000000, [("INR", ⟨"₹"⟩)]⟩], 0⟩).trace =
      (countryHandler
        ((NewMemoryCache.Set "Peru" (.str "x")).Set "Chile" (.country ⟨"Chile", "Santiago", "$", 19⟩))
        ⟨[("name", "India")]⟩
        ⟨.decoded [⟨⟨"India"⟩, ["New Delhi"], 1400000000, [("INR", ⟨"₹"⟩)]⟩], 0⟩).trace ∧
    (countryHandler NewMemoryCache ⟨[("name", "India")]⟩
        ⟨.decoded [⟨⟨"India"⟩, ["New Delhi"], 1400000000, [("INR", ⟨"₹"⟩)]⟩], 0⟩).cache.Get
        (Values.Get (Request.mk [("name", "India")]).query "name") =
      (countryHandler
        ((NewMemoryCache.Set "Peru" (.str "x")).Set "Chile" (.country ⟨"Chile", "Santiago", "$", 19⟩))
        ⟨[("name", "India")]⟩
        ⟨.decoded [⟨⟨"India"⟩, ["New Delhi"], 1400000000, [("INR", ⟨"₹"⟩)]⟩], 0⟩).cache.Get
        (Values.Get (Request.mk [("name", "India")]).query "name") ∧
    (((countryHandler NewMemoryCache ⟨[("name", "India")]⟩
          ⟨.decoded [⟨⟨"India"⟩, ["New Delhi"], 1400000000, [("INR", ⟨"₹"⟩)]⟩], 0⟩).cache =
        NewMemoryCache ∧
      (countryHandler
        ((NewMemoryCache.Set "Peru" (.str "x")).Set "Chile" (.country ⟨"Chile", "Santiago", "$", 19⟩))
        ⟨[("name", "India")]⟩
        ⟨.decoded [⟨⟨"India"⟩, ["New Delhi"], 1400000000, [("INR", ⟨"₹"⟩)]⟩], 0⟩).cache =
        (NewMemoryCache.Set "Peru" (.str "x")).Set "Chile" (.country ⟨"Chile", "Santiago", "$", 19⟩)) ∨
      ∃ v : Value,
        (countryHandler NewMemoryCache ⟨[("name", "India")]⟩
          ⟨.decoded [⟨⟨"India"⟩, ["New Delhi"], 1400000000, [("INR", ⟨"₹"⟩)]⟩], 0⟩).cache =
          NewMemoryCache.Set (Values.Get (Request.mk [("name", "India")]).query "name") v ∧
        (countryHandler
          ((NewMemoryCache.Set "Peru" (.str "x")).Set "Chile" (.country ⟨"Chile", "Santiago", "$", 19⟩))
          ⟨[("name", "India")]⟩
          ⟨.decoded [⟨⟨"India"⟩, ["New Delhi"], 1400000000, [("INR", ⟨"₹"⟩)]⟩], 0⟩).cache =
          ((NewMemoryCache.Set "Peru" (.str "x")).Set "Chile"
            (.country ⟨"Chile", "Santiago", "$", 19⟩)).Set
            (Values.Get (Request.mk [("name", "India")]).query "name") v)) :=
  ⟨by decide, by decide, by decide,
   miss_independent_of_other_entries NewMemoryCache
     ((NewMemoryCache.Set "Peru" (.str "x")).Set "Chile" (.country ⟨"Chile", "Santiago", "$", 19⟩))
     ⟨[("name", "India")]⟩
     ⟨.decoded [⟨⟨"India"⟩, ["New Delhi"], 1400000000, [("INR", ⟨"₹"⟩)]⟩], 0⟩
     (by decide) (by decide) (by decide)⟩

end CountrySearch
